import Mathlib

set_option autoImplicit false

/-!
Shallow embedding of the seat-hold / reservation core of the MovieMint
repository (server/controllers/bookingController.js,
server/controllers/stripeWebhooks.js, cron/expireTickets.js,
server/models/Booking.js, server/inngest/index.js).

Time is modelled as milliseconds since the epoch (`Nat`), matching the
JavaScript `Date.now()` arithmetic.  JavaScript objects used as maps
(`show.occupiedSeats`, `show.heldSeats`) and the mongo collections are
modelled as string-keyed association lists whose operations mirror the
JS object operations (`obj[k] = v`, `delete obj[k]`, `obj[k]`).
-/

namespace MovieMint

/-- String-keyed association map modelling a JavaScript object or a mongo
collection keyed by id.  Keys of an actual JS object are unique; the
operations below preserve that when it holds. -/
abbrev SMap (α : Type) : Type := List (String × α)

/-- Read `obj[k]`: the first entry with key `k`. -/
def mapFind? {α : Type} : SMap α → String → Option α
  | [], _ => none
  | (k', v) :: rest, k => if k' = k then some v else mapFind? rest k

/-- Write `obj[k] = v`: replace the entry if the key is present, else append. -/
def mapInsert {α : Type} : SMap α → String → α → SMap α
  | [], k, v => [(k, v)]
  | (k', v') :: rest, k, v =>
    if k' = k then (k, v) :: rest else (k', v') :: mapInsert rest k v

/-- JS `delete obj[k]`. -/
def mapErase {α : Type} : SMap α → String → SMap α
  | [], _ => []
  | (k', v') :: rest, k =>
    if k' = k then mapErase rest k else (k', v') :: mapErase rest k

/-- The keys of the map are pairwise distinct (always true of a JS object). -/
def keysNodup {α : Type} (m : SMap α) : Prop := (m.map Prod.fst).Nodup

/-- Number of entries carrying the key `k`. -/
def countKey {α : Type} (m : SMap α) (k : String) : Nat :=
  m.countP (fun p => p.1 == k)

/-- One value of `show.heldSeats`: `{ bookingId, user, expiresAt }`
(bookingController.js line 457).  `expiresAt` is optional because the
cleanup helper explicitly handles entries that lack it. -/
structure HoldEntry where
  bookingId : String
  user : String
  expiresAt : Option Nat
  deriving DecidableEq

/-- The seat-ledger part of a Show document: `showPrice` plus the two seat
maps `occupiedSeats : seat id -> user id` and `heldSeats`.  `showPrice = 0`
stands for the falsy/invalid prices rejected by `createBooking`. -/
structure Show where
  showPrice : Nat
  occupiedSeats : SMap String
  heldSeats : SMap HoldEntry
  deriving DecidableEq

/-- `status` enum of models/Booking.js. -/
inductive BookingStatus
  | pending
  | confirmed
  | cancelled
  deriving DecidableEq

/-- A Booking document (models/Booking.js), restricted to the fields the
seat-hold core reads and writes.  The JS field `show` is called `showId`
here (`show` is a Lean keyword). -/
structure Booking where
  user : String
  showId : String
  amount : Nat
  seats : List String
  status : BookingStatus
  expiresAt : Option Nat
  isPaid : Bool
  deriving DecidableEq

/-- The persistent state the controllers act on: the Show collection and
the Booking collection. -/
structure DB where
  shows : SMap Show
  bookings : SMap Booking
  deriving DecidableEq

/-- Occupant of a seat of a show, if any. -/
def occupiedOf (db : DB) (showId seat : String) : Option String :=
  (mapFind? db.shows showId).bind fun sh => mapFind? sh.occupiedSeats seat

/-- Hold entry of a seat of a show, if any. -/
def heldOf (db : DB) (showId seat : String) : Option HoldEntry :=
  (mapFind? db.shows showId).bind fun sh => mapFind? sh.heldSeats seat

/-- Status of a booking, if it exists. -/
def statusOf (db : DB) (bookingId : String) : Option BookingStatus :=
  (mapFind? db.bookings bookingId).map Booking.status

/-! ### cleanupExpiredHeldSeats (bookingController.js lines 343-369) -/

/-- Predicate kept by the cleanup: the entry has an `expiresAt` that is
still in the future (`new Date(entry.expiresAt).getTime() > now`). -/
def holdAlive (now : Nat) (e : HoldEntry) : Bool :=
  match e.expiresAt with
  | none => false
  | some t => decide (now < t)

/-- `cleanupExpiredHeldSeats`: deletes every held entry whose `expiresAt`
is missing or has passed; `occupiedSeats` is never touched.  The
save-if-changed persistence is handled at the call sites. -/
def cleanupExpiredHeldSeats (now : Nat) (s : Show) : Show :=
  { s with heldSeats := s.heldSeats.filter fun e => holdAlive now e.2 }

/-! ### createBooking (bookingController.js lines 400-526)

The controller is split at its persistence point into a read/check phase
and a commit phase so that the interleaving of two concurrent requests
(claim C6) can be expressed; `createBooking` itself is their sequential
composition, which is what a single uncontended request executes. -/

/-- The availability loop of `createBooking` (lines 421-430): returns the
error message of the first requested seat that is confirmed-occupied or
held with an unexpired hold, `none` when every requested seat is free. -/
def firstSeatConflict (now : Nat) (doc : Show) : List String → Option String
  | [] => none
  | seat :: rest =>
    if (mapFind? doc.occupiedSeats seat).isSome then some "Seat already booked"
    else
      match mapFind? doc.heldSeats seat with
      | some e =>
        match e.expiresAt with
        | some t =>
          if now < t then some "Seat temporarily held"
          else firstSeatConflict now doc rest
        | none => firstSeatConflict now doc rest
      | none => firstSeatConflict now doc rest

/-- A seat is unavailable for a new claim: confirmed-occupied, or held by
an unexpired hold (necessarily of a different reservation, since the
claiming reservation does not exist yet). -/
def seatBlocked (now : Nat) (doc : Show) (s : String) : Prop :=
  (mapFind? doc.occupiedSeats s).isSome = true ∨
  ∃ e t, mapFind? doc.heldSeats s = some e ∧ e.expiresAt = some t ∧ now < t

/-- Read/check phase of `createBooking`: input validation, show lookup,
expired-hold cleanup (persisted), availability loop, price check.
Returns the cleaned show document on success. -/
def claimPhase1 (now : Nat) (db : DB) (showId : String)
    (selectedSeats : List String) : Except String Show × DB :=
  if selectedSeats = [] then
    (Except.error "showId and selectedSeats required", db)
  else
    match mapFind? db.shows showId with
    | none => (Except.error "Show not found", db)
    | some sh =>
      match firstSeatConflict now (cleanupExpiredHeldSeats now sh) selectedSeats with
      | some msg =>
        (Except.error msg,
         { db with shows := mapInsert db.shows showId (cleanupExpiredHeldSeats now sh) })
      | none =>
        if (cleanupExpiredHeldSeats now sh).showPrice = 0 then
          (Except.error "Invalid show price. Cannot proceed to payment.",
           { db with shows := mapInsert db.shows showId (cleanupExpiredHeldSeats now sh) })
        else
          (Except.ok (cleanupExpiredHeldSeats now sh),
           { db with shows := mapInsert db.shows showId (cleanupExpiredHeldSeats now sh) })

/-- Result of `createBooking` as seen by the caller:
`{ success, bookingId, expiresAt }` plus the charged amount, or the
failure message. -/
inductive CreateResult
  | ok (bookingId : String) (expiresAt : Nat) (amount : Nat)
  | err (msg : String)
  deriving DecidableEq

/-- `true` on the success result. -/
def CreateResult.isOk : CreateResult → Bool
  | CreateResult.ok _ _ _ => true
  | CreateResult.err _ => false

/-- The two seat-contention failure messages of `createBooking`; both
realize the SeatUnavailable error of the specification. -/
def isSeatUnavailable (r : CreateResult) : Prop :=
  r = CreateResult.err "Seat already booked" ∨
  r = CreateResult.err "Seat temporarily held"

/-- The hold entry written for each seat of a new claim (line 457). -/
def newHold (bookingId userId : String) (expiresAt : Nat) : HoldEntry :=
  { bookingId := bookingId, user := userId, expiresAt := some expiresAt }

/-- The `selectedSeats.forEach` loop of lines 456-462: write one held
entry per requested seat (later writes overwrite earlier ones). -/
def holdAll (bookingId userId : String) (expiresAt : Nat) (seats : List String)
    (m : SMap HoldEntry) : SMap HoldEntry :=
  seats.foldl (fun acc seat => mapInsert acc seat (newHold bookingId userId expiresAt)) m

/-- The show document as saved by a successful claim: the input document
with one live hold entry per requested seat. -/
def claimedShow (bookingId userId : String) (expiresAt : Nat)
    (seats : List String) (doc : Show) : Show :=
  { doc with heldSeats := holdAll bookingId userId expiresAt seats doc.heldSeats }

/-- Commit phase of `createBooking` (lines 432-464): computes
`amount = showPrice * seats`, `expiresAt = now + TTL`, creates the
pending Booking, writes one held entry per requested seat into the show
document, and saves it. -/
def claimPhase2 (now ttlMs : Nat) (db : DB) (userId showId bookingId : String)
    (selectedSeats : List String) (doc : Show) : CreateResult × DB :=
  let expiresAt := now + ttlMs
  let amount := doc.showPrice * selectedSeats.length
  let booking : Booking :=
    { user := userId, showId := showId, amount := amount, seats := selectedSeats,
      status := BookingStatus.pending, expiresAt := some expiresAt, isPaid := false }
  let held2 := holdAll bookingId userId expiresAt selectedSeats doc.heldSeats
  (CreateResult.ok bookingId expiresAt amount,
   { shows := mapInsert db.shows showId { doc with heldSeats := held2 },
     bookings := mapInsert db.bookings bookingId booking })

/-- `HOLD_MINUTES` (line 340): `Number(process.env.BOOKING_HOLD_MINUTES || 10)`,
i.e. the environment value when set, else 10 minutes. -/
def HOLD_MINUTES (env : Option Nat) : Nat := env.getD 10

/-- POST /api/booking/create, sequential execution (the two phases back to
back, which is what an uncontended request performs). -/
def createBooking (now ttlMs : Nat) (db : DB) (userId showId bookingId : String)
    (selectedSeats : List String) : CreateResult × DB :=
  match claimPhase1 now db showId selectedSeats with
  | (Except.error msg, db1) => (CreateResult.err msg, db1)
  | (Except.ok doc, db1) =>
    claimPhase2 now ttlMs db1 userId showId bookingId selectedSeats doc

/-! ### confirmBooking (bookingController.js lines 739-835) and the
Stripe webhook (stripeWebhooks.js) -/

/-- `booking.expiresAt && new Date(booking.expiresAt).getTime() <= Date.now()`. -/
def bookingExpired (now : Nat) (b : Booking) : Bool :=
  match b.expiresAt with
  | none => false
  | some t => decide (t ≤ now)

/-- `show.occupiedSeats[seat] = booking.user` for every listed seat. -/
def occupyAll (user : String) (seats : List String) (m : SMap String) : SMap String :=
  seats.foldl (fun acc seat => mapInsert acc seat user) m

/-- The unconditional `delete show.heldSeats[seat]` loop of `confirmBooking`. -/
def eraseAll (seats : List String) (m : SMap HoldEntry) : SMap HoldEntry :=
  seats.foldl (fun acc seat => mapErase acc seat) m

/-- One iteration of the guarded release loop: delete `heldSeats[seat]`
only when the entry belongs to this booking. -/
def releaseHeldStep (bookingId : String) (m : SMap HoldEntry) (seat : String) :
    SMap HoldEntry :=
  match mapFind? m seat with
  | some e => if e.bookingId = bookingId then mapErase m seat else m
  | none => m

/-- The guarded release loop shared by `releaseBooking`, the cron sweep and
the webhook. -/
def releaseHeldOwned (bookingId : String) (seats : List String)
    (m : SMap HoldEntry) : SMap HoldEntry :=
  seats.foldl (releaseHeldStep bookingId) m

/-- Result of POST /api/booking/confirm. -/
inductive ConfirmResult
  | ok (msg : String)
  | err (msg : String)
  deriving DecidableEq

/-- POST /api/booking/confirm.  Already-confirmed bookings return success
unchanged; a pending booking past its expiry is cancelled and rejected
(without touching the show document); everything else — including a
booking already in `cancelled` status — is marked confirmed and its seats
are written into `occupiedSeats` (held entries for those seats are
deleted unconditionally).  Ticket generation and payment fields other
than `isPaid` are external to the seat ledger and omitted. -/
def confirmBooking (now : Nat) (db : DB) (bookingId : String) :
    ConfirmResult × DB :=
  match mapFind? db.bookings bookingId with
  | none => (ConfirmResult.err "Booking not found", db)
  | some b =>
    if b.status = BookingStatus.confirmed then
      (ConfirmResult.ok "Already confirmed", db)
    else if bookingExpired now b = true ∧ b.status = BookingStatus.pending then
      (ConfirmResult.err "Booking expired",
       { db with bookings :=
          mapInsert db.bookings bookingId { b with status := BookingStatus.cancelled } })
    else
      let b2 : Booking := { b with status := BookingStatus.confirmed, isPaid := true }
      let db1 : DB := { db with bookings := mapInsert db.bookings bookingId b2 }
      match mapFind? db1.shows b.showId with
      | none => (ConfirmResult.ok "Confirmed (show missing)", db1)
      | some sh =>
        let sh2 : Show := { sh with
          occupiedSeats := occupyAll b.user b.seats sh.occupiedSeats,
          heldSeats := eraseAll b.seats sh.heldSeats }
        (ConfirmResult.ok "Booking confirmed",
         { db1 with shows := mapInsert db1.shows b.showId sh2 })

/-- Observable outcome of the `checkout.session.completed` branch of the
Stripe webhook (stripeWebhooks.js lines 25-74); the HTTP reply is
`{received: true}` in every case. -/
inductive WebhookOutcome
  | missingBooking
  | alreadyConfirmed
  | confirmedNoShow
  | confirmedSeatsMoved
  deriving DecidableEq

/-- The webhook confirm path.  Note: it performs no expiry check at all,
and its idempotency guard requires `isPaid && status === "confirmed"`;
held entries are deleted only when owned by this booking. -/
def stripeWebhookCompleted (db : DB) (bookingId : String) :
    WebhookOutcome × DB :=
  match mapFind? db.bookings bookingId with
  | none => (WebhookOutcome.missingBooking, db)
  | some b =>
    if b.isPaid = true ∧ b.status = BookingStatus.confirmed then
      (WebhookOutcome.alreadyConfirmed, db)
    else
      let b2 : Booking := { b with isPaid := true, status := BookingStatus.confirmed }
      let db1 : DB := { db with bookings := mapInsert db.bookings bookingId b2 }
      match mapFind? db1.shows b.showId with
      | none => (WebhookOutcome.confirmedNoShow, db1)
      | some sh =>
        let sh2 : Show := { sh with
          occupiedSeats := occupyAll b.user b.seats sh.occupiedSeats,
          heldSeats := releaseHeldOwned bookingId b.seats sh.heldSeats }
        (WebhookOutcome.confirmedSeatsMoved,
         { db1 with shows := mapInsert db1.shows b.showId sh2 })

/-! ### releaseBooking (bookingController.js lines 680-733) -/

/-- Result of POST /api/booking/release. -/
inductive ReleaseResult
  | ok (msg : String)
  | err (msg : String)
  deriving DecidableEq

/-- POST /api/booking/release.  Rejects non-owner non-admin callers and
already-confirmed bookings; otherwise — including a booking that is
already `cancelled` — it re-saves the booking as cancelled with
`expiresAt = Date.now() - 1000`, deletes its held entries from the show,
and reports success. -/
def releaseBooking (now : Nat) (db : DB) (userId : String) (isAdmin : Bool)
    (bookingId : String) : ReleaseResult × DB :=
  match mapFind? db.bookings bookingId with
  | none => (ReleaseResult.err "Booking not found", db)
  | some b =>
    if b.user ≠ userId ∧ isAdmin = false then
      (ReleaseResult.err "Not authorized to release this booking", db)
    else if b.status = BookingStatus.confirmed then
      (ReleaseResult.err "Booking already confirmed", db)
    else
      let b2 : Booking :=
        { b with status := BookingStatus.cancelled, expiresAt := some (now - 1000) }
      let db1 : DB := { db with bookings := mapInsert db.bookings bookingId b2 }
      match mapFind? db1.shows b.showId with
      | none => (ReleaseResult.ok "Released hold", db1)
      | some sh =>
        let sh2 : Show :=
          { sh with heldSeats := releaseHeldOwned bookingId b.seats sh.heldSeats }
        (ReleaseResult.ok "Released hold",
         { db1 with shows := mapInsert db1.shows b.showId sh2 })

/-! ### The periodic sweep (cron/expireTickets.js) -/

/-- Processing of one expired pending booking by the cron sweep: mark it
cancelled, then delete its held entries from its show. -/
def expireOne (d : DB) (bookingId : String) (b : Booking) : DB :=
  let b2 : Booking := { b with status := BookingStatus.cancelled }
  let d1 : DB := { d with bookings := mapInsert d.bookings bookingId b2 }
  match mapFind? d1.shows b.showId with
  | none => d1
  | some sh =>
    let sh2 : Show :=
      { sh with heldSeats := releaseHeldOwned bookingId b.seats sh.heldSeats }
    { d1 with shows := mapInsert d1.shows b.showId sh2 }

/-- The every-2-minutes cron job: query the pending bookings whose
`expiresAt` has passed, then cancel each and release its holds. -/
def expireTicketsSweep (now : Nat) (db : DB) : DB :=
  let expired := db.bookings.filter fun p =>
    decide (p.2.status = BookingStatus.pending) && bookingExpired now p.2
  expired.foldl (fun d p => expireOne d p.1 p.2) db

/-! ### Concurrent claims (claim C6)

The Show mongoose schema (models/Show.js) is not among the sources; only
its callers are.  Whether two overlapping `findById` / `save` sequences
on the same Show document can both commit is decided by that schema's
persistence options, so the store semantics below is taken from the
specification instead of the code. -/

/-- Modelled from the spec: the missing Show schema / document store
semantics.  Spec section 5: a mutating save is an "optimistic document
update checked for conflicting writes" — an atomic compare-and-swap that
rejects when the show changed since the caller's read.  The version map
attached to the database stands for that conflict check; it is bumped by
every committed seat-map write. -/
structure CDB where
  db : DB
  ver : SMap Nat

/-- Current conflict-check version of a show document. -/
def verOf (c : CDB) (showId : String) : Nat := (mapFind? c.ver showId).getD 0

/-- Local state of an in-flight `createBooking` request after its
read/check phase: the show document it loaded and the version it read. -/
structure ClaimRead where
  doc : Show
  readVer : Nat

/-- The read/check phase of one concurrent `createBooking` request:
`claimPhase1` against the current store, remembering the version read. -/
def cRead (now : Nat) (c : CDB) (showId : String) (seats : List String) :
    Except String ClaimRead × CDB :=
  match claimPhase1 now c.db showId seats with
  | (Except.error e, db1) => (Except.error e, { c with db := db1 })
  | (Except.ok doc, db1) =>
    (Except.ok { doc := doc, readVer := verOf c showId }, { c with db := db1 })

/-- An unconditional commit of the write phase, bumping the version. -/
def cCommit (now ttlMs : Nat) (c : CDB) (userId showId bookingId : String)
    (seats : List String) (doc : Show) : CreateResult × CDB :=
  let r := claimPhase2 now ttlMs c.db userId showId bookingId seats doc
  (r.1, { db := r.2, ver := mapInsert c.ver showId (verOf c showId + 1) })

/-- A whole `createBooking` request executed without interleaving (its
compare-and-swap trivially succeeds). -/
def cClaimAtomic (now ttlMs : Nat) (c : CDB) (userId showId bookingId : String)
    (seats : List String) : CreateResult × CDB :=
  match cRead now c showId seats with
  | (Except.error e, c1) => (CreateResult.err e, c1)
  | (Except.ok r, c1) => cCommit now ttlMs c1 userId showId bookingId seats r.doc

/-- Modelled from the spec: the write phase under the conflict check.  If
the show version is still the one read, the write commits; otherwise the
save conflicts and, per spec section 7, the request is transparently
retried (a bounded retry, here once, is enough for two contenders): the
retry re-reads the show and so observes the winning claim's holds. -/
def cWrite (now ttlMs : Nat) (c : CDB) (userId showId bookingId : String)
    (seats : List String) (r : ClaimRead) : CreateResult × CDB :=
  if verOf c showId = r.readVer then
    cCommit now ttlMs c userId showId bookingId seats r.doc
  else
    cClaimAtomic now ttlMs c userId showId bookingId seats

/-- Finish one request given the outcome of its read phase: a failed read
already produced the response; a successful read proceeds to the
conflict-checked write. -/
def finishOp (now ttlMs : Nat) (c : CDB) (userId showId bookingId : String)
    (seats : List String) : Except String ClaimRead → CreateResult × CDB
  | Except.error e => (CreateResult.err e, c)
  | Except.ok r => cWrite now ttlMs c userId showId bookingId seats r

/-- Arguments of one concurrent claim request. -/
structure ClaimArgs where
  u : String
  bid : String
  seats : List String

/-- The essentially distinct interleavings of two requests `a` and `b`,
each consisting of a read phase followed by a write phase. -/
inductive Interleaving
  | seq     -- Ra Wa Rb Wb : a completes before b starts
  | rrww    -- Ra Rb Wa Wb : both read before either writes; a writes first
  | rrwbwa  -- Ra Rb Wb Wa : both read before either writes; b writes first

/-- Run two concurrent `createBooking` requests against the same show
under the given interleaving; returns (result of a, result of b, store). -/
def runPair (now ttlMs : Nat) (c : CDB) (showId : String) (a b : ClaimArgs) :
    Interleaving → CreateResult × CreateResult × CDB
  | Interleaving.seq =>
    let ra := cClaimAtomic now ttlMs c a.u showId a.bid a.seats
    let rb := cClaimAtomic now ttlMs ra.2 b.u showId b.bid b.seats
    (ra.1, rb.1, rb.2)
  | Interleaving.rrww =>
    let ea := cRead now c showId a.seats
    let eb := cRead now ea.2 showId b.seats
    let wa := finishOp now ttlMs eb.2 a.u showId a.bid a.seats ea.1
    let wb := finishOp now ttlMs wa.2 b.u showId b.bid b.seats eb.1
    (wa.1, wb.1, wb.2)
  | Interleaving.rrwbwa =>
    let ea := cRead now c showId a.seats
    let eb := cRead now ea.2 showId b.seats
    let wb := finishOp now ttlMs eb.2 b.u showId b.bid b.seats eb.1
    let wa := finishOp now ttlMs wb.2 a.u showId a.bid a.seats ea.1
    (wa.1, wb.1, wa.2)

/-- The possible schedules of two concurrent claims 1 and 2 (each a read
phase followed by a write phase, in program order). -/
inductive Sched
  | s1  -- R1 W1 R2 W2
  | s2  -- R1 R2 W1 W2
  | s3  -- R1 R2 W2 W1
  | s4  -- R2 W2 R1 W1
  | s5  -- R2 R1 W2 W1
  | s6  -- R2 R1 W1 W2

/-- Execute claims 1 and 2 under a schedule; returns
(result of claim 1, result of claim 2, final store). -/
def runTwoClaims (now ttlMs : Nat) (c : CDB) (showId : String)
    (a1 a2 : ClaimArgs) : Sched → CreateResult × CreateResult × CDB
  | Sched.s1 => runPair now ttlMs c showId a1 a2 Interleaving.seq
  | Sched.s2 => runPair now ttlMs c showId a1 a2 Interleaving.rrww
  | Sched.s3 => runPair now ttlMs c showId a1 a2 Interleaving.rrwbwa
  | Sched.s4 =>
    let o := runPair now ttlMs c showId a2 a1 Interleaving.seq
    (o.2.1, o.1, o.2.2)
  | Sched.s5 =>
    let o := runPair now ttlMs c showId a2 a1 Interleaving.rrww
    (o.2.1, o.1, o.2.2)
  | Sched.s6 =>
    let o := runPair now ttlMs c showId a2 a1 Interleaving.rrwbwa
    (o.2.1, o.1, o.2.2)

/-! ### The seat-ledger invariant (spec section 3) -/

/-- A seat id appears in at most one of `occupied` or non-expired `held`,
and never twice in `held` (so never under two reservation identities). -/
def seatLedgerInvariant (now : Nat) (s : Show) : Prop :=
  (∀ seat, (mapFind? s.occupiedSeats seat).isSome = true →
      ¬ ∃ e t, mapFind? s.heldSeats seat = some e ∧
        e.expiresAt = some t ∧ now < t) ∧
  keysNodup s.heldSeats

/-! ### Concrete states used to instantiate the claims -/

/-- A fresh show: price 100, no occupied and no held seats. -/
def freshShow : Show := { showPrice := 100, occupiedSeats := [], heldSeats := [] }

/-- A booking that was cancelled (for example by an explicit release)
before anyone calls confirm on it. -/
def cancelledBooking : Booking :=
  { user := "u1", showId := "S", amount := 100, seats := ["A1"],
    status := BookingStatus.cancelled, expiresAt := some 500, isPaid := false }

/-- State with one cancelled booking for seat A1 of show S. -/
def c1db : DB :=
  { shows := [("S", freshShow)], bookings := [("b1", cancelledBooking)] }

/-- Initial state of the C2 scenario: an empty show S. -/
def c2db0 : DB := { shows := [("S", freshShow)], bookings := [] }

/-- C2 scenario, step 1: at time 0, booking b1 claims seat A1 with a
10-minute TTL (hold expires at 600000). -/
def c2db1 : DB := (createBooking 0 600000 c2db0 "u1" "S" "b1" ["A1"]).2

/-- C2 scenario, step 2: at time 700000 (after b1's hold expired but with
b1 still pending), booking b2 claims the same seat A1; the claim's
cleanup removes b1's expired hold and the claim succeeds. -/
def c2db2 : DB := (createBooking 700000 600000 c2db1 "u2" "S" "b2" ["A1"]).2

/-- C2 scenario, step 3: the payment webhook for b1 arrives (Stripe may
deliver it late); the webhook has no expiry check, so it confirms b1. -/
def c2final : DB := (stripeWebhookCompleted c2db2 "b1").2

/-- A show whose seat A1 carries a live hold of booking b0. -/
def c3show : Show :=
  { showPrice := 100, occupiedSeats := [],
    heldSeats := [("A1", { bookingId := "b0", user := "u0", expiresAt := some 1000 })] }

/-- State for the C3 witness: seat A1 of show S is held (unexpired). -/
def c3db : DB := { shows := [("S", c3show)], bookings := [] }

/-- A pending booking for seat A1 whose expiry (500) has passed. -/
def expiredPendingBooking : Booking :=
  { user := "u1", showId := "S", amount := 100, seats := ["A1"],
    status := BookingStatus.pending, expiresAt := some 500, isPaid := false }

/-- A show where seat A1 still carries the (expired) hold of booking b1. -/
def c4show : Show :=
  { showPrice := 100, occupiedSeats := [],
    heldSeats := [("A1", { bookingId := "b1", user := "u1", expiresAt := some 500 })] }

/-- State for C4: pending booking b1 past its expiry, its hold entry
still present on show S, and no sweep has run. -/
def c4db : DB := { shows := [("S", c4show)], bookings := [("b1", expiredPendingBooking)] }

/-- A booking that is already confirmed and paid. -/
def confirmedBooking : Booking :=
  { user := "u1", showId := "S", amount := 100, seats := ["A1"],
    status := BookingStatus.confirmed, expiresAt := none, isPaid := true }

/-- The show state after b1's confirm moved A1 into `occupiedSeats`. -/
def c5show : Show := { showPrice := 100, occupiedSeats := [("A1", "u1")], heldSeats := [] }

/-- State for the C5 witness: b1 confirmed, its seat occupied. -/
def c5db : DB := { shows := [("S", c5show)], bookings := [("b1", confirmedBooking)] }

/-- Store for the C6 witness: the fresh show S with version map empty. -/
def c6store : CDB := { db := c2db0, ver := [] }

/-- First concurrent claim of the C6 witness. -/
def c6args1 : ClaimArgs := { u := "u1", bid := "b1", seats := ["A1"] }

/-- Second concurrent claim of the C6 witness. -/
def c6args2 : ClaimArgs := { u := "u2", bid := "b2", seats := ["A1", "A2"] }

/-- A cancelled booking for seat A1 whose recorded expiry is 5000. -/
def c7booking : Booking :=
  { user := "u1", showId := "S", amount := 100, seats := ["A1"],
    status := BookingStatus.cancelled, expiresAt := some 5000, isPaid := false }

/-- A show where seat A1 still carries the hold of cancelled booking b1
(exactly the state confirm-after-expiry leaves behind). -/
def c7show : Show :=
  { showPrice := 100, occupiedSeats := [],
    heldSeats := [("A1", { bookingId := "b1", user := "u1", expiresAt := some 5000 })] }

/-- State for C7: already-cancelled booking b1 on show S. -/
def c7db : DB := { shows := [("S", c7show)], bookings := [("b1", c7booking)] }

/-- State for the C9 and C10 witnesses: an empty show S. -/
def c9db : DB := { shows := [("S", freshShow)], bookings := [] }

/-! ### Library lemmas about the map operations -/

theorem mapFind?_insert_self {α : Type} (m : SMap α) (k : String) (v : α) :
    mapFind? (mapInsert m k v) k = some v := by
  induction m with
  | nil => simp [mapInsert, mapFind?]
  | cons p rest ih =>
    obtain ⟨k', v'⟩ := p
    by_cases h : k' = k
    · simp [mapInsert, h, mapFind?]
    · simp [mapInsert, h, mapFind?, ih]

theorem mapFind?_insert_ne {α : Type} (m : SMap α) (k' k : String) (v : α)
    (h : k' ≠ k) : mapFind? (mapInsert m k' v) k = mapFind? m k := by
  induction m with
  | nil => simp [mapInsert, mapFind?, h]
  | cons p rest ih =>
    obtain ⟨k0, v0⟩ := p
    by_cases h0 : k0 = k'
    · subst h0
      simp [mapInsert, mapFind?, h]
    · by_cases h1 : k0 = k
      · subst h1
        simp [mapInsert, h0, mapFind?, fun hh => h (Eq.symm hh), ih]
      · simp [mapInsert, h0, mapFind?, h1, ih]

theorem mapInsert_self_eq {α : Type} (m : SMap α) (k : String) (v : α)
    (h : mapFind? m k = some v) : mapInsert m k v = m := by
  induction m with
  | nil => simp [mapFind?] at h
  | cons p rest ih =>
    obtain ⟨k0, v0⟩ := p
    by_cases h0 : k0 = k
    · subst h0
      simp [mapFind?] at h
      simp [mapInsert, h]
    · simp [mapFind?, h0] at h
      simp [mapInsert, h0, ih h]

theorem mapFind?_filter {α : Type} (p : String × α → Bool) (m : SMap α)
    (k : String) (v : α) (h : mapFind? m k = some v) (hp : p (k, v) = true) :
    mapFind? (m.filter p) k = some v := by
  induction m with
  | nil => simp [mapFind?] at h
  | cons q rest ih =>
    obtain ⟨k0, v0⟩ := q
    by_cases h0 : k0 = k
    · subst h0
      simp [mapFind?] at h
      subst h
      simp [List.filter, hp, mapFind?]
    · simp [mapFind?, h0] at h
      by_cases hq : p (k0, v0) = true
      · simp [List.filter, hq, mapFind?, h0, ih h]
      · simp only [List.filter]
        rw [Bool.not_eq_true] at hq
        simp [hq, ih h]

theorem mapFind?_foldl_insert {α : Type} (v : α) (l : List String) (m : SMap α)
    (k : String) :
    mapFind? (l.foldl (fun acc s => mapInsert acc s v) m) k =
      if k ∈ l then some v else mapFind? m k := by
  induction l generalizing m with
  | nil => simp
  | cons a rest ih =>
    simp only [List.foldl_cons]
    rw [ih]
    by_cases hk : k ∈ rest
    · simp [hk]
    · by_cases ha : a = k
      · subst ha
        simp [hk, mapFind?_insert_self]
      · simp [hk, Ne.symm ha, mapFind?_insert_ne _ _ _ _ ha]

theorem mapFind?_erase_self {α : Type} (m : SMap α) (k : String) :
    mapFind? (mapErase m k) k = none := by
  induction m with
  | nil => simp [mapErase, mapFind?]
  | cons p rest ih =>
    obtain ⟨k0, v0⟩ := p
    by_cases h0 : k0 = k
    · simp [mapErase, h0, ih]
    · simp [mapErase, h0, mapFind?, ih]

theorem mapFind?_erase_ne {α : Type} (m : SMap α) (k' k : String) (h : k' ≠ k) :
    mapFind? (mapErase m k') k = mapFind? m k := by
  induction m with
  | nil => simp [mapErase]
  | cons p rest ih =>
    obtain ⟨k0, v0⟩ := p
    by_cases h0 : k0 = k'
    · subst h0
      simp [mapErase, mapFind?, h, ih]
    · simp [mapErase, h0, mapFind?, ih]

/-! ### Lemmas about the cleanup and the availability loop -/

theorem cleanup_occupied (now : Nat) (s : Show) :
    (cleanupExpiredHeldSeats now s).occupiedSeats = s.occupiedSeats := rfl

theorem cleanup_price (now : Nat) (s : Show) :
    (cleanupExpiredHeldSeats now s).showPrice = s.showPrice := rfl

theorem cleanup_idem (now : Nat) (s : Show) :
    cleanupExpiredHeldSeats now (cleanupExpiredHeldSeats now s) =
      cleanupExpiredHeldSeats now s := by
  simp [cleanupExpiredHeldSeats, List.filter_filter]

theorem cleanup_mem_subset (now : Nat) (s : Show) (p : String × HoldEntry)
    (h : p ∈ (cleanupExpiredHeldSeats now s).heldSeats) : p ∈ s.heldSeats := by
  simp only [cleanupExpiredHeldSeats, List.mem_filter] at h
  exact h.1

theorem seatBlocked_cleanup {now : Nat} {sh : Show} {s : String}
    (hb : seatBlocked now sh s) :
    seatBlocked now (cleanupExpiredHeldSeats now sh) s := by
  rcases hb with h | ⟨e, t, hf, he, ht⟩
  · exact Or.inl h
  · refine Or.inr ⟨e, t, ?_, he, ht⟩
    exact mapFind?_filter _ _ _ _ hf (by simp [holdAlive, he, ht])

theorem firstSeatConflict_classify {now : Nat} {doc : Show} {seats : List String}
    {msg : String} (h : firstSeatConflict now doc seats = some msg) :
    msg = "Seat already booked" ∨ msg = "Seat temporarily held" := by
  induction seats with
  | nil => simp [firstSeatConflict] at h
  | cons a rest ih =>
    unfold firstSeatConflict at h
    split at h
    · exact Or.inl (Option.some.inj h).symm
    · split at h
      · split at h
        · split at h
          · exact Or.inr (Option.some.inj h).symm
          · exact ih h
        · exact ih h
      · exact ih h

theorem conflict_none_not_blocked {now : Nat} {doc : Show} {seats : List String}
    (h : firstSeatConflict now doc seats = none) :
    ∀ s ∈ seats, ¬ seatBlocked now doc s := by
  induction seats with
  | nil => intro s hs; simp at hs
  | cons a rest ih =>
    intro s hs hblocked
    unfold firstSeatConflict at h
    split at h
    · exact Option.noConfusion h
    · rename_i hocc
      split at h
      · rename_i e heq
        split at h
        · rename_i t hexp
          split at h
          · exact Option.noConfusion h
          · rename_i hlt
            rcases List.mem_cons.mp hs with rfl | hmem
            · rcases hblocked with ho | ⟨e', t', hf, he, ht⟩
              · exact hocc ho
              · rw [heq] at hf
                injection hf with hf
                subst hf
                rw [hexp] at he
                injection he with he
                subst he
                exact hlt ht
            · exact ih h s hmem hblocked
        · rename_i hexp
          rcases List.mem_cons.mp hs with rfl | hmem
          · rcases hblocked with ho | ⟨e', t', hf, he, ht⟩
            · exact hocc ho
            · rw [heq] at hf
              injection hf with hf
              subst hf
              rw [hexp] at he
              exact Option.noConfusion he
          · exact ih h s hmem hblocked
      · rename_i heq
        rcases List.mem_cons.mp hs with rfl | hmem
        · rcases hblocked with ho | ⟨e', t', hf, he, ht⟩
          · exact hocc ho
          · rw [heq] at hf
            exact Option.noConfusion hf
        · exact ih h s hmem hblocked

theorem firstSeatConflict_none_of {now : Nat} {doc : Show} {seats : List String}
    (h : ∀ s ∈ seats, ¬ seatBlocked now doc s) :
    firstSeatConflict now doc seats = none := by
  induction seats with
  | nil => rfl
  | cons a rest ih =>
    have ha := h a (List.mem_cons_self a rest)
    have htail := fun s hs => h s (List.mem_cons_of_mem a hs)
    unfold firstSeatConflict
    split
    · rename_i hocc
      exact absurd (Or.inl hocc) ha
    · split
      · rename_i e heq
        split
        · rename_i t hexp
          split
          · rename_i hlt
            exact absurd (Or.inr ⟨e, t, heq, hexp, hlt⟩) ha
          · exact ih htail
        · exact ih htail
      · exact ih htail

theorem conflict_ne_none_of_blocked {now : Nat} {doc : Show} {seats : List String}
    {s : String} (hs : s ∈ seats) (hb : seatBlocked now doc s) :
    firstSeatConflict now doc seats ≠ none := fun h =>
  conflict_none_not_blocked h s hs hb

theorem conflict_some_of_blocked {now : Nat} {doc : Show} {seats : List String}
    {s : String} (hs : s ∈ seats) (hb : seatBlocked now doc s) :
    ∃ msg, firstSeatConflict now doc seats = some msg ∧
      (msg = "Seat already booked" ∨ msg = "Seat temporarily held") := by
  rcases hc : firstSeatConflict now doc seats with _ | msg
  · exact absurd hc (conflict_ne_none_of_blocked hs hb)
  · exact ⟨msg, rfl, firstSeatConflict_classify hc⟩

/-! ### Inversion and evaluation lemmas for the createBooking phases -/

theorem claimPhase1_ok_elim {now : Nat} {db : DB} {S : String} {seats : List String}
    {doc : Show} {db1 : DB}
    (h : claimPhase1 now db S seats = (Except.ok doc, db1)) :
    seats ≠ [] ∧ ∃ sh, mapFind? db.shows S = some sh ∧
      doc = cleanupExpiredHeldSeats now sh ∧
      firstSeatConflict now doc seats = none ∧
      doc.showPrice ≠ 0 ∧
      db1 = { db with shows := mapInsert db.shows S doc } := by
  unfold claimPhase1 at h
  split at h
  · simp at h
  · rename_i hne
    split at h
    · simp at h
    · rename_i sh heq
      split at h
      · simp at h
      · rename_i hconf
        split at h
        · simp at h
        · rename_i hprice
          rw [Prod.mk.injEq] at h
          obtain ⟨h1, h2⟩ := h
          injection h1 with h1
          subst h1
          exact ⟨hne, sh, heq, rfl, hconf, hprice, h2.symm⟩

theorem claimPhase1_err_elim {now : Nat} {db : DB} {S : String} {seats : List String}
    {m : String} {db1 : DB}
    (h : claimPhase1 now db S seats = (Except.error m, db1)) :
    (m = "showId and selectedSeats required" ∧ seats = [] ∧ db1 = db) ∨
    (m = "Show not found" ∧ mapFind? db.shows S = none ∧ db1 = db) ∨
    (∃ sh, mapFind? db.shows S = some sh ∧
      db1 = { db with shows := mapInsert db.shows S (cleanupExpiredHeldSeats now sh) } ∧
      ((firstSeatConflict now (cleanupExpiredHeldSeats now sh) seats = some m ∧
        (m = "Seat already booked" ∨ m = "Seat temporarily held")) ∨
       (m = "Invalid show price. Cannot proceed to payment." ∧
        firstSeatConflict now (cleanupExpiredHeldSeats now sh) seats = none ∧
        sh.showPrice = 0))) := by
  unfold claimPhase1 at h
  split at h
  · rename_i hempty
    rw [Prod.mk.injEq] at h
    obtain ⟨h1, h2⟩ := h
    injection h1 with h1
    exact Or.inl ⟨h1.symm, hempty, h2.symm⟩
  · rename_i hne
    split at h
    · rename_i hnf
      rw [Prod.mk.injEq] at h
      obtain ⟨h1, h2⟩ := h
      injection h1 with h1
      exact Or.inr (Or.inl ⟨h1.symm, hnf, h2.symm⟩)
    · rename_i sh heq
      split at h
      · rename_i msg hconf
        rw [Prod.mk.injEq] at h
        obtain ⟨h1, h2⟩ := h
        injection h1 with h1
        subst h1
        exact Or.inr (Or.inr ⟨sh, heq, h2.symm,
          Or.inl ⟨hconf, firstSeatConflict_classify hconf⟩⟩)
      · rename_i hconf
        split at h
        · rename_i hprice
          rw [Prod.mk.injEq] at h
          obtain ⟨h1, h2⟩ := h
          injection h1 with h1
          exact Or.inr (Or.inr ⟨sh, heq, h2.symm,
            Or.inr ⟨h1.symm, hconf, by rw [cleanup_price] at hprice; exact hprice⟩⟩)
        · rw [Prod.mk.injEq] at h
          obtain ⟨h1, _⟩ := h
          exact absurd h1 (by simp)

theorem claimPhase1_ok_intro {now : Nat} {db : DB} {S : String} {seats : List String}
    {sh : Show} (hne : seats ≠ []) (hfind : mapFind? db.shows S = some sh)
    (hconf : firstSeatConflict now (cleanupExpiredHeldSeats now sh) seats = none)
    (hprice : sh.showPrice ≠ 0) :
    claimPhase1 now db S seats =
      (Except.ok (cleanupExpiredHeldSeats now sh),
       { db with shows := mapInsert db.shows S (cleanupExpiredHeldSeats now sh) }) := by
  have hp2 : (cleanupExpiredHeldSeats now sh).showPrice ≠ 0 := by
    rw [cleanup_price]; exact hprice
  simp [claimPhase1, hne, hfind, hconf, hp2]

theorem claimPhase1_conflict_intro {now : Nat} {db : DB} {S : String}
    {seats : List String} {sh : Show} {msg : String}
    (hne : seats ≠ []) (hfind : mapFind? db.shows S = some sh)
    (hconf : firstSeatConflict now (cleanupExpiredHeldSeats now sh) seats = some msg) :
    claimPhase1 now db S seats =
      (Except.error msg,
       { db with shows := mapInsert db.shows S (cleanupExpiredHeldSeats now sh) }) := by
  simp [claimPhase1, hne, hfind, hconf]

theorem claimPhase1_notfound_intro {now : Nat} {db : DB} {S : String}
    {seats : List String} (hne : seats ≠ []) (hfind : mapFind? db.shows S = none) :
    claimPhase1 now db S seats = (Except.error "Show not found", db) := by
  simp [claimPhase1, hne, hfind]

theorem claimPhase2_eq (now ttlMs : Nat) (db : DB) (u S bid : String)
    (seats : List String) (doc : Show) :
    claimPhase2 now ttlMs db u S bid seats doc =
      (CreateResult.ok bid (now + ttlMs) (doc.showPrice * seats.length),
       { shows := mapInsert db.shows S
           { doc with heldSeats := holdAll bid u (now + ttlMs) seats doc.heldSeats },
         bookings := mapInsert db.bookings bid
           { user := u, showId := S, amount := doc.showPrice * seats.length,
             seats := seats, status := BookingStatus.pending,
             expiresAt := some (now + ttlMs), isPaid := false } }) := rfl

theorem mapFind?_holdAll (bid u : String) (t : Nat) (seats : List String)
    (m : SMap HoldEntry) (k : String) :
    mapFind? (holdAll bid u t seats m) k =
      if k ∈ seats then some (newHold bid u t) else mapFind? m k :=
  mapFind?_foldl_insert _ _ _ _

theorem claimPhase2_blocks {now ttlMs : Nat} {db : DB} {u S bid : String}
    {sA : List String} {doc : Show} {s : String}
    (hsA : s ∈ sA) (httl : 0 < ttlMs) {sB : List String} (hsB : s ∈ sB)
    {r : Except String Show} {db3 : DB}
    (h : claimPhase1 now (claimPhase2 now ttlMs db u S bid sA doc).2 S sB = (r, db3)) :
    ∃ m, r = Except.error m ∧
      (m = "Seat already booked" ∨ m = "Seat temporarily held") := by
  have hfind : mapFind? (claimPhase2 now ttlMs db u S bid sA doc).2.shows S =
      some { doc with heldSeats := holdAll bid u (now + ttlMs) sA doc.heldSeats } := by
    rw [claimPhase2_eq]
    exact mapFind?_insert_self _ _ _
  have hheld : mapFind? ({ doc with
      heldSeats := holdAll bid u (now + ttlMs) sA doc.heldSeats } : Show).heldSeats s =
      some (newHold bid u (now + ttlMs)) := by
    show mapFind? (holdAll bid u (now + ttlMs) sA doc.heldSeats) s = _
    rw [mapFind?_holdAll, if_pos hsA]
  have hblocked : seatBlocked now ({ doc with
      heldSeats := holdAll bid u (now + ttlMs) sA doc.heldSeats } : Show) s :=
    Or.inr ⟨_, now + ttlMs, hheld, rfl, Nat.lt_add_of_pos_right httl⟩
  cases r with
  | ok doc2 =>
    obtain ⟨_, sh2, hfind2, hdoc2, hconf2, _, _⟩ := claimPhase1_ok_elim h
    rw [hfind] at hfind2
    injection hfind2 with hfind2
    subst hfind2
    exact absurd (seatBlocked_cleanup hblocked)
      (conflict_none_not_blocked (hdoc2 ▸ hconf2) s hsB)
  | error m =>
    rcases claimPhase1_err_elim h with ⟨_, hempty, _⟩ | ⟨_, hnf, _⟩ |
        ⟨sh2, hfind2, _, ⟨_, hclass⟩ | ⟨_, hconf2, _⟩⟩
    · exact absurd hempty (List.ne_nil_of_mem hsB)
    · rw [hfind] at hnf
      exact Option.noConfusion hnf
    · exact ⟨m, rfl, hclass⟩
    · rw [hfind] at hfind2
      injection hfind2 with hfind2
      subst hfind2
      exact absurd (seatBlocked_cleanup hblocked)
        (conflict_none_not_blocked hconf2 s hsB)

/-! ### Composition lemmas for concurrent claims -/

theorem claimPhase1_after_ok {now : Nat} {db : DB} {S : String} {sA : List String}
    {doc : Show} {db1 : DB}
    (h : claimPhase1 now db S sA = (Except.ok doc, db1))
    (sB : List String) (hne : sB ≠ []) :
    (firstSeatConflict now doc sB = none ∧
      claimPhase1 now db1 S sB = (Except.ok doc, db1)) ∨
    (∃ m, firstSeatConflict now doc sB = some m ∧
      claimPhase1 now db1 S sB = (Except.error m, db1) ∧
      (m = "Seat already booked" ∨ m = "Seat temporarily held")) := by
  obtain ⟨_, sh, hfind, hdoc, _, hprice, hdb1⟩ := claimPhase1_ok_elim h
  have hclean : cleanupExpiredHeldSeats now doc = doc := by
    rw [hdoc]; exact cleanup_idem now sh
  have hfind1 : mapFind? db1.shows S = some doc := by
    rw [hdb1]; exact mapFind?_insert_self _ _ _
  have hins : mapInsert db1.shows S doc = db1.shows := mapInsert_self_eq _ _ _ hfind1
  rcases hc : firstSeatConflict now doc sB with _ | m
  · left
    refine ⟨rfl, ?_⟩
    have hconf2 : firstSeatConflict now (cleanupExpiredHeldSeats now doc) sB = none := by
      rw [hclean]; exact hc
    have hpr : doc.showPrice ≠ 0 := by
      rw [← cleanup_price now doc, hclean]; exact hprice
    have heval := claimPhase1_ok_intro hne hfind1 hconf2 hpr
    rw [hclean, hins] at heval
    exact heval
  · right
    refine ⟨m, rfl, ?_, firstSeatConflict_classify hc⟩
    have hconf2 : firstSeatConflict now (cleanupExpiredHeldSeats now doc) sB = some m := by
      rw [hclean]; exact hc
    have heval := claimPhase1_conflict_intro hne hfind1 hconf2
    rw [hclean, hins] at heval
    exact heval

theorem claimPhase1_ok_after_err {now : Nat} {db : DB} {S : String}
    {sA : List String} {m : String} {db1 : DB}
    (h : claimPhase1 now db S sA = (Except.error m, db1)) (hA : sA ≠ [])
    {sB : List String} {doc2 : Show} {db2 : DB}
    (h2 : claimPhase1 now db1 S sB = (Except.ok doc2, db2)) :
    m = "Seat already booked" ∨ m = "Seat temporarily held" := by
  rcases claimPhase1_err_elim h with ⟨_, hempty, _⟩ | ⟨_, hnf, hdb⟩ |
      ⟨sh, hfind, hdb, ⟨_, hclass⟩ | ⟨_, _, hprice⟩⟩
  · exact absurd hempty hA
  · subst hdb
    obtain ⟨_, sh2, hfind2, _⟩ := claimPhase1_ok_elim h2
    rw [hnf] at hfind2
    exact Option.noConfusion hfind2
  · exact hclass
  · subst hdb
    obtain ⟨_, sh2, hfind2, hdoc2, _, hprice2, _⟩ := claimPhase1_ok_elim h2
    rw [show ({ db with
        shows := mapInsert db.shows S (cleanupExpiredHeldSeats now sh) } : DB).shows =
        mapInsert db.shows S (cleanupExpiredHeldSeats now sh) from rfl,
      mapFind?_insert_self] at hfind2
    injection hfind2 with hfind2
    exfalso
    apply hprice2
    rw [hdoc2, ← hfind2, cleanup_idem, cleanup_price, hprice]

theorem seatUnavailable_not_isOk {r : CreateResult} (h : isSeatUnavailable r) :
    r.isOk = false := by
  rcases h with h | h <;> subst h <;> rfl

theorem cRead_err {now : Nat} {c : CDB} {S : String} {seats : List String}
    {e : String} {db1 : DB} (h : claimPhase1 now c.db S seats = (Except.error e, db1)) :
    cRead now c S seats = (Except.error e, { c with db := db1 }) := by
  unfold cRead
  rw [h]

theorem cRead_ok {now : Nat} {c : CDB} {S : String} {seats : List String}
    {doc : Show} {db1 : DB} (h : claimPhase1 now c.db S seats = (Except.ok doc, db1)) :
    cRead now c S seats =
      (Except.ok { doc := doc, readVer := verOf c S }, { c with db := db1 }) := by
  unfold cRead
  rw [h]

theorem cCommit_fst (now ttlMs : Nat) (c : CDB) (u S bid : String)
    (seats : List String) (doc : Show) :
    (cCommit now ttlMs c u S bid seats doc).1 =
      CreateResult.ok bid (now + ttlMs) (doc.showPrice * seats.length) := by
  unfold cCommit
  rw [claimPhase2_eq]

theorem cCommit_db (now ttlMs : Nat) (c : CDB) (u S bid : String)
    (seats : List String) (doc : Show) :
    (cCommit now ttlMs c u S bid seats doc).2.db =
      (claimPhase2 now ttlMs c.db u S bid seats doc).2 := rfl

theorem verOf_cCommit (now ttlMs : Nat) (c : CDB) (u S bid : String)
    (seats : List String) (doc : Show) :
    verOf (cCommit now ttlMs c u S bid seats doc).2 S = verOf c S + 1 := by
  unfold cCommit verOf
  simp [mapFind?_insert_self]

theorem cWrite_cas_ok {now ttlMs : Nat} {c : CDB} {u S bid : String}
    {seats : List String} {r : ClaimRead} (h : verOf c S = r.readVer) :
    cWrite now ttlMs c u S bid seats r = cCommit now ttlMs c u S bid seats r.doc := by
  unfold cWrite
  rw [if_pos h]

theorem cWrite_cas_fail {now ttlMs : Nat} {c : CDB} {u S bid : String}
    {seats : List String} {r : ClaimRead} (h : verOf c S ≠ r.readVer) :
    cWrite now ttlMs c u S bid seats r = cClaimAtomic now ttlMs c u S bid seats := by
  unfold cWrite
  rw [if_neg h]

theorem cClaimAtomic_err_of_phase1 {now ttlMs : Nat} {c : CDB} {u S bid : String}
    {seats : List String}
    (h : ∀ r db3, claimPhase1 now c.db S seats = (r, db3) →
      ∃ m, r = Except.error m ∧
        (m = "Seat already booked" ∨ m = "Seat temporarily held")) :
    isSeatUnavailable (cClaimAtomic now ttlMs c u S bid seats).1 := by
  rcases hp : claimPhase1 now c.db S seats with ⟨r, db1⟩
  obtain ⟨m, hr, hm⟩ := h r db1 hp
  subst hr
  have : cClaimAtomic now ttlMs c u S bid seats = (CreateResult.err m, { c with db := db1 }) := by
    unfold cClaimAtomic
    rw [cRead_err hp]
  rw [this]
  rcases hm with hm | hm <;> subst hm
  · exact Or.inl rfl
  · exact Or.inr rfl

theorem after_commit_blocked {now ttlMs : Nat} {c : CDB} {u1 S b1 : String}
    {sA : List String} {doc : Show} {s : String}
    (hsA : s ∈ sA) (httl : 0 < ttlMs) {sB : List String} (hsB : s ∈ sB)
    (u2 b2 : String) :
    isSeatUnavailable
      (cClaimAtomic now ttlMs (cCommit now ttlMs c u1 S b1 sA doc).2
        u2 S b2 sB).1 := by
  apply cClaimAtomic_err_of_phase1
  intro r db3 hp
  rw [cCommit_db] at hp
  exact claimPhase2_blocks hsA httl hsB hp

theorem runPair_exclusive (now ttlMs : Nat) (c : CDB) (S : String)
    (a b : ClaimArgs) (s : String) (il : Interleaving)
    (httl : 0 < ttlMs) (ha : s ∈ a.seats) (hb : s ∈ b.seats) :
    ¬((runPair now ttlMs c S a b il).1.isOk = true ∧
      (runPair now ttlMs c S a b il).2.1.isOk = true) ∧
    ((runPair now ttlMs c S a b il).1.isOk = true →
      isSeatUnavailable (runPair now ttlMs c S a b il).2.1) ∧
    ((runPair now ttlMs c S a b il).2.1.isOk = true →
      isSeatUnavailable (runPair now ttlMs c S a b il).1) := by
  have hA : a.seats ≠ [] := List.ne_nil_of_mem ha
  have hB : b.seats ≠ [] := List.ne_nil_of_mem hb
  cases il with
  | seq =>
    rcases hp1 : claimPhase1 now c.db S a.seats with ⟨r1, db1⟩
    cases r1 with
    | error m1 =>
      have e1 : cClaimAtomic now ttlMs c a.u S a.bid a.seats =
          (CreateResult.err m1, { c with db := db1 }) := by
        unfold cClaimAtomic
        rw [cRead_err hp1]
      simp only [runPair]
      rw [e1]
      dsimp only
      rcases hp2 : claimPhase1 now db1 S b.seats with ⟨r2, db2⟩
      cases r2 with
      | error m2 =>
        have e2 : cClaimAtomic now ttlMs { c with db := db1 } b.u S b.bid b.seats =
            (CreateResult.err m2, { c with db := db2 }) := by
          unfold cClaimAtomic
          rw [cRead_err hp2]
        rw [e2]
        dsimp only
        refine ⟨?_, ?_, ?_⟩ <;> simp [CreateResult.isOk]
      | ok doc2 =>
        have e2 : cClaimAtomic now ttlMs { c with db := db1 } b.u S b.bid b.seats =
            cCommit now ttlMs { c with db := db2 } b.u S b.bid b.seats doc2 := by
          unfold cClaimAtomic
          rw [cRead_ok hp2]
        rw [e2]
        have hclass := claimPhase1_ok_after_err hp1 hA hp2
        refine ⟨?_, ?_, ?_⟩
        · rintro ⟨h1, _⟩
          simp [CreateResult.isOk] at h1
        · intro h1
          simp [CreateResult.isOk] at h1
        · intro _
          rcases hclass with hm | hm <;> subst hm
          · exact Or.inl rfl
          · exact Or.inr rfl
    | ok doc =>
      have e1 : cClaimAtomic now ttlMs c a.u S a.bid a.seats =
          cCommit now ttlMs { c with db := db1 } a.u S a.bid a.seats doc := by
        unfold cClaimAtomic
        rw [cRead_ok hp1]
      simp only [runPair]
      rw [e1]
      have hb2 : isSeatUnavailable
          (cClaimAtomic now ttlMs
            (cCommit now ttlMs { c with db := db1 } a.u S a.bid a.seats doc).2
            b.u S b.bid b.seats).1 :=
        after_commit_blocked ha httl hb b.u b.bid
      refine ⟨?_, fun _ => hb2, ?_⟩
      · rintro ⟨_, h2⟩
        rw [seatUnavailable_not_isOk hb2] at h2
        exact Bool.noConfusion h2
      · intro h2
        rw [seatUnavailable_not_isOk hb2] at h2
        exact Bool.noConfusion h2
  | rrww =>
    rcases hp1 : claimPhase1 now c.db S a.seats with ⟨r1, db1⟩
    cases r1 with
    | error m1 =>
      simp only [runPair]
      rw [cRead_err hp1]
      dsimp only
      rcases hp2 : claimPhase1 now db1 S b.seats with ⟨r2, db2⟩
      cases r2 with
      | error m2 =>
        have e2 : cRead now { c with db := db1 } S b.seats =
            (Except.error m2, { c with db := db2 }) := cRead_err hp2
        rw [e2]
        dsimp only [finishOp]
        refine ⟨?_, ?_, ?_⟩ <;> simp [CreateResult.isOk]
      | ok doc2 =>
        have e2 : cRead now { c with db := db1 } S b.seats =
            (Except.ok { doc := doc2, readVer := verOf { c with db := db1 } S },
             { c with db := db2 }) := cRead_ok hp2
        rw [e2]
        dsimp only [finishOp]
        have hw : cWrite now ttlMs { c with db := db2 } b.u S b.bid b.seats
            { doc := doc2, readVer := verOf { c with db := db1 } S } =
            cCommit now ttlMs { c with db := db2 } b.u S b.bid b.seats doc2 :=
          cWrite_cas_ok rfl
        rw [hw]
        have hclass := claimPhase1_ok_after_err hp1 hA hp2
        refine ⟨?_, ?_, ?_⟩
        · rintro ⟨h1, _⟩
          simp [CreateResult.isOk] at h1
        · intro h1
          simp [CreateResult.isOk] at h1
        · intro _
          rcases hclass with hm | hm <;> subst hm
          · exact Or.inl rfl
          · exact Or.inr rfl
    | ok doc =>
      simp only [runPair]
      rw [cRead_ok hp1]
      dsimp only
      rcases hp2 : claimPhase1 now db1 S b.seats with ⟨r2, db2⟩
      cases r2 with
      | error m2 =>
        have e2 : cRead now { c with db := db1 } S b.seats =
            (Except.error m2, { c with db := db2 }) := cRead_err hp2
        rw [e2]
        dsimp only [finishOp]
        have hw : cWrite now ttlMs { c with db := db2 } a.u S a.bid a.seats
            { doc := doc, readVer := verOf c S } =
            cCommit now ttlMs { c with db := db2 } a.u S a.bid a.seats doc :=
          cWrite_cas_ok rfl
        rw [hw]
        have hm2 : m2 = "Seat already booked" ∨ m2 = "Seat temporarily held" := by
          rcases claimPhase1_after_ok hp1 b.seats hB with ⟨_, heval⟩ | ⟨m, _, heval, hclass⟩
          · rw [hp2] at heval
            rw [Prod.mk.injEq] at heval
            exact absurd heval.1 (by simp)
          · rw [hp2] at heval
            rw [Prod.mk.injEq] at heval
            obtain ⟨h1, _⟩ := heval
            injection h1 with h1
            rw [h1]
            exact hclass
        refine ⟨?_, ?_, ?_⟩
        · rintro ⟨_, h2⟩
          simp [CreateResult.isOk] at h2
        · intro _
          rcases hm2 with hm | hm <;> subst hm
          · exact Or.inl rfl
          · exact Or.inr rfl
        · intro h2
          simp [CreateResult.isOk] at h2
      | ok doc2 =>
        have e2 : cRead now { c with db := db1 } S b.seats =
            (Except.ok { doc := doc2, readVer := verOf { c with db := db1 } S },
             { c with db := db2 }) := cRead_ok hp2
        rw [e2]
        dsimp only [finishOp]
        have hw : cWrite now ttlMs { c with db := db2 } a.u S a.bid a.seats
            { doc := doc, readVer := verOf c S } =
            cCommit now ttlMs { c with db := db2 } a.u S a.bid a.seats doc :=
          cWrite_cas_ok rfl
        rw [hw]
        have hfail : verOf (cCommit now ttlMs { c with db := db2 } a.u S a.bid
            a.seats doc).2 S ≠
            ({ doc := doc2, readVer := verOf { c with db := db1 } S } : ClaimRead).readVer := by
          rw [verOf_cCommit]
          exact Nat.succ_ne_self _
        rw [cWrite_cas_fail hfail]
        have hb2 : isSeatUnavailable
            (cClaimAtomic now ttlMs
              (cCommit now ttlMs { c with db := db2 } a.u S a.bid a.seats doc).2
              b.u S b.bid b.seats).1 :=
          after_commit_blocked ha httl hb b.u b.bid
        refine ⟨?_, fun _ => hb2, ?_⟩
        · rintro ⟨_, h2⟩
          rw [seatUnavailable_not_isOk hb2] at h2
          exact Bool.noConfusion h2
        · intro h2
          rw [seatUnavailable_not_isOk hb2] at h2
          exact Bool.noConfusion h2
  | rrwbwa =>
    rcases hp1 : claimPhase1 now c.db S a.seats with ⟨r1, db1⟩
    cases r1 with
    | error m1 =>
      simp only [runPair]
      rw [cRead_err hp1]
      dsimp only
      rcases hp2 : claimPhase1 now db1 S b.seats with ⟨r2, db2⟩
      cases r2 with
      | error m2 =>
        have e2 : cRead now { c with db := db1 } S b.seats =
            (Except.error m2, { c with db := db2 }) := cRead_err hp2
        rw [e2]
        dsimp only [finishOp]
        refine ⟨?_, ?_, ?_⟩ <;> simp [CreateResult.isOk]
      | ok doc2 =>
        have e2 : cRead now { c with db := db1 } S b.seats =
            (Except.ok { doc := doc2, readVer := verOf { c with db := db1 } S },
             { c with db := db2 }) := cRead_ok hp2
        rw [e2]
        dsimp only [finishOp]
        have hw : cWrite now ttlMs { c with db := db2 } b.u S b.bid b.seats
            { doc := doc2, readVer := verOf { c with db := db1 } S } =
            cCommit now ttlMs { c with db := db2 } b.u S b.bid b.seats doc2 :=
          cWrite_cas_ok rfl
        rw [hw]
        have hclass := claimPhase1_ok_after_err hp1 hA hp2
        refine ⟨?_, ?_, ?_⟩
        · rintro ⟨h1, _⟩
          simp [CreateResult.isOk] at h1
        · intro h1
          simp [CreateResult.isOk] at h1
        · intro _
          rcases hclass with hm | hm <;> subst hm
          · exact Or.inl rfl
          · exact Or.inr rfl
    | ok doc =>
      simp only [runPair]
      rw [cRead_ok hp1]
      dsimp only
      rcases hp2 : claimPhase1 now db1 S b.seats with ⟨r2, db2⟩
      cases r2 with
      | error m2 =>
        have e2 : cRead now { c with db := db1 } S b.seats =
            (Except.error m2, { c with db := db2 }) := cRead_err hp2
        rw [e2]
        dsimp only [finishOp]
        have hw : cWrite now ttlMs { c with db := db2 } a.u S a.bid a.seats
            { doc := doc, readVer := verOf c S } =
            cCommit now ttlMs { c with db := db2 } a.u S a.bid a.seats doc :=
          cWrite_cas_ok rfl
        rw [hw]
        have hm2 : m2 = "Seat already booked" ∨ m2 = "Seat temporarily held" := by
          rcases claimPhase1_after_ok hp1 b.seats hB with ⟨_, heval⟩ | ⟨m, _, heval, hclass⟩
          · rw [hp2] at heval
            rw [Prod.mk.injEq] at heval
            exact absurd heval.1 (by simp)
          · rw [hp2] at heval
            rw [Prod.mk.injEq] at heval
            obtain ⟨h1, _⟩ := heval
            injection h1 with h1
            rw [h1]
            exact hclass
        refine ⟨?_, ?_, ?_⟩
        · rintro ⟨_, h2⟩
          simp [CreateResult.isOk] at h2
        · intro _
          rcases hm2 with hm | hm <;> subst hm
          · exact Or.inl rfl
          · exact Or.inr rfl
        · intro h2
          simp [CreateResult.isOk] at h2
      | ok doc2 =>
        have e2 : cRead now { c with db := db1 } S b.seats =
            (Except.ok { doc := doc2, readVer := verOf { c with db := db1 } S },
             { c with db := db2 }) := cRead_ok hp2
        rw [e2]
        dsimp only [finishOp]
        have hw : cWrite now ttlMs { c with db := db2 } b.u S b.bid b.seats
            { doc := doc2, readVer := verOf { c with db := db1 } S } =
            cCommit now ttlMs { c with db := db2 } b.u S b.bid b.seats doc2 :=
          cWrite_cas_ok rfl
        rw [hw]
        have hfail : verOf (cCommit now ttlMs { c with db := db2 } b.u S b.bid
            b.seats doc2).2 S ≠
            ({ doc := doc, readVer := verOf c S } : ClaimRead).readVer := by
          rw [verOf_cCommit]
          exact Nat.succ_ne_self _
        rw [cWrite_cas_fail hfail]
        have ha2 : isSeatUnavailable
            (cClaimAtomic now ttlMs
              (cCommit now ttlMs { c with db := db2 } b.u S b.bid b.seats doc2).2
              a.u S a.bid a.seats).1 :=
          after_commit_blocked hb httl ha a.u a.bid
        refine ⟨?_, ?_, fun _ => ha2⟩
        · rintro ⟨h1, _⟩
          rw [seatUnavailable_not_isOk ha2] at h1
          exact Bool.noConfusion h1
        · intro h1
          rw [seatUnavailable_not_isOk ha2] at h1
          exact Bool.noConfusion h1

/-! ### Behaviour of the guarded release loop -/

theorem releaseHeldStep_owned {bid a : String} {m : SMap HoldEntry}
    {e : HoldEntry} (hfa : mapFind? m a = some e) (hown : e.bookingId = bid) :
    releaseHeldStep bid m a = mapErase m a := by
  simp [releaseHeldStep, hfa, hown]

theorem releaseHeldStep_not_owned {bid a : String} {m : SMap HoldEntry}
    {e : HoldEntry} (hfa : mapFind? m a = some e) (hown : e.bookingId ≠ bid) :
    releaseHeldStep bid m a = m := by
  simp [releaseHeldStep, hfa, hown]

theorem releaseHeldStep_absent {bid a : String} {m : SMap HoldEntry}
    (hfa : mapFind? m a = none) : releaseHeldStep bid m a = m := by
  simp [releaseHeldStep, hfa]

theorem releaseHeldStep_find {bid a k : String} (m : SMap HoldEntry)
    (hak : a ≠ k) : mapFind? (releaseHeldStep bid m a) k = mapFind? m k := by
  rcases hfa : mapFind? m a with _ | e
  · rw [releaseHeldStep_absent hfa]
  · by_cases hown : e.bookingId = bid
    · rw [releaseHeldStep_owned hfa hown]
      exact mapFind?_erase_ne _ _ _ hak
    · rw [releaseHeldStep_not_owned hfa hown]

theorem releaseHeldOwned_none {bid : String} {seats : List String}
    {m : SMap HoldEntry} {k : String} (hf : mapFind? m k = none) :
    mapFind? (releaseHeldOwned bid seats m) k = none := by
  induction seats generalizing m with
  | nil => exact hf
  | cons a rest ih =>
    unfold releaseHeldOwned
    rw [List.foldl_cons]
    apply ih
    by_cases hak : a = k
    · subst hak
      rw [releaseHeldStep_absent hf]
      exact hf
    · rw [releaseHeldStep_find m hak]
      exact hf

theorem releaseHeldOwned_owned {bid : String} {seats : List String}
    {m : SMap HoldEntry} {k : String} (hk : k ∈ seats) {e : HoldEntry}
    (hf : mapFind? m k = some e) (hown : e.bookingId = bid) :
    mapFind? (releaseHeldOwned bid seats m) k = none := by
  induction seats generalizing m with
  | nil => simp at hk
  | cons a rest ih =>
    unfold releaseHeldOwned
    rw [List.foldl_cons]
    by_cases hak : a = k
    · subst hak
      rw [releaseHeldStep_owned hf hown]
      show mapFind? (releaseHeldOwned bid rest (mapErase m a)) a = none
      exact releaseHeldOwned_none (mapFind?_erase_self _ _)
    · have hk2 : k ∈ rest := by
        rcases List.mem_cons.mp hk with h | h
        · exact absurd h.symm hak
        · exact h
      exact ih hk2 (by rw [releaseHeldStep_find m hak]; exact hf)

theorem releaseHeldOwned_not_owned {bid : String} {seats : List String}
    {m : SMap HoldEntry} {k : String} {e : HoldEntry}
    (hf : mapFind? m k = some e) (hown : e.bookingId ≠ bid) :
    mapFind? (releaseHeldOwned bid seats m) k = some e := by
  induction seats generalizing m with
  | nil => exact hf
  | cons a rest ih =>
    unfold releaseHeldOwned
    rw [List.foldl_cons]
    by_cases hak : a = k
    · subst hak
      rw [releaseHeldStep_not_owned hf hown]
      exact ih hf
    · exact ih (by rw [releaseHeldStep_find m hak]; exact hf)

/-! ### The cron sweep never touches occupied seats -/

theorem expireOne_occupied (d : DB) (bid : String) (b : Booking) (sid : String) :
    (mapFind? (expireOne d bid b).shows sid).map Show.occupiedSeats =
      (mapFind? d.shows sid).map Show.occupiedSeats := by
  simp only [expireOne]
  rcases hf : mapFind? d.shows b.showId with _ | sh
  · rfl
  · dsimp only
    by_cases hsid : b.showId = sid
    · subst hsid
      rw [mapFind?_insert_self, hf]
      rfl
    · rw [mapFind?_insert_ne _ _ _ _ hsid]

theorem foldl_expireOne_occupied (l : List (String × Booking)) (d : DB)
    (sid : String) :
    (mapFind? (l.foldl (fun d2 p => expireOne d2 p.1 p.2) d).shows sid).map
        Show.occupiedSeats =
      (mapFind? d.shows sid).map Show.occupiedSeats := by
  induction l generalizing d with
  | nil => rfl
  | cons p l ih => rw [List.foldl_cons, ih, expireOne_occupied]

theorem expireTicketsSweep_occupied (now : Nat) (db : DB) (sid : String) :
    (mapFind? (expireTicketsSweep now db).shows sid).map Show.occupiedSeats =
      (mapFind? db.shows sid).map Show.occupiedSeats := by
  unfold expireTicketsSweep
  exact foldl_expireOne_occupied _ _ _

/-! ### Full success specification of createBooking -/

theorem createBooking_ok_spec {now ttlMs : Nat} {db : DB} {u S bid : String}
    {seats : List String} {sh : Show}
    (hfind : mapFind? db.shows S = some sh) (hne : seats ≠ [])
    (hfree : ∀ s ∈ seats, ¬ seatBlocked now (cleanupExpiredHeldSeats now sh) s)
    (hprice : sh.showPrice ≠ 0) :
    createBooking now ttlMs db u S bid seats =
      (CreateResult.ok bid (now + ttlMs) (sh.showPrice * seats.length),
       { shows := mapInsert (mapInsert db.shows S (cleanupExpiredHeldSeats now sh)) S
           (claimedShow bid u (now + ttlMs) seats (cleanupExpiredHeldSeats now sh)),
         bookings := mapInsert db.bookings bid
           { user := u, showId := S, amount := sh.showPrice * seats.length,
             seats := seats, status := BookingStatus.pending,
             expiresAt := some (now + ttlMs), isPaid := false } }) := by
  have hconf : firstSeatConflict now (cleanupExpiredHeldSeats now sh) seats = none :=
    firstSeatConflict_none_of hfree
  unfold createBooking
  rw [claimPhase1_ok_intro hne hfind hconf hprice]
  rfl

/-! ### Unique keys and entry counting -/

theorem mapFind?_eq_none_iff {α : Type} (m : SMap α) (k : String) :
    mapFind? m k = none ↔ k ∉ m.map Prod.fst := by
  induction m with
  | nil => simp [mapFind?]
  | cons p rest ih =>
    obtain ⟨k0, v0⟩ := p
    by_cases h0 : k0 = k
    · subst h0
      simp [mapFind?]
    · simp [mapFind?, h0, ih, Ne.symm h0]

theorem keys_mapInsert {α : Type} (m : SMap α) (k : String) (v : α) :
    (mapInsert m k v).map Prod.fst =
      if (mapFind? m k).isSome then m.map Prod.fst else m.map Prod.fst ++ [k] := by
  induction m with
  | nil => simp [mapInsert, mapFind?]
  | cons p rest ih =>
    obtain ⟨k0, v0⟩ := p
    by_cases h0 : k0 = k
    · subst h0
      simp [mapInsert, mapFind?]
    · simp only [mapInsert, if_neg h0, List.map_cons, mapFind?, ih]
      by_cases hmem : (mapFind? rest k).isSome
      · simp [hmem]
      · simp [hmem]

theorem keysNodup_insert {α : Type} {m : SMap α} (k : String) (v : α)
    (h : keysNodup m) : keysNodup (mapInsert m k v) := by
  unfold keysNodup at h ⊢
  rw [keys_mapInsert]
  by_cases hmem : (mapFind? m k).isSome
  · simpa [hmem] using h
  · rw [if_neg hmem]
    have hk : k ∉ m.map Prod.fst := by
      rw [← mapFind?_eq_none_iff]
      exact Option.not_isSome_iff_eq_none.mp hmem
    simp [List.nodup_append, h, hk]

theorem keysNodup_filter {α : Type} (p : String × α → Bool) {m : SMap α}
    (h : keysNodup m) : keysNodup (m.filter p) := by
  unfold keysNodup at h ⊢
  exact List.Nodup.sublist (List.Sublist.map Prod.fst (List.filter_sublist m)) h

theorem keysNodup_holdAll {bid u : String} {t : Nat} (seats : List String)
    {m : SMap HoldEntry} (h : keysNodup m) :
    keysNodup (holdAll bid u t seats m) := by
  induction seats generalizing m with
  | nil => exact h
  | cons a rest ih =>
    unfold holdAll
    rw [List.foldl_cons]
    exact ih (keysNodup_insert _ _ h)

theorem countKey_eq_zero {α : Type} {m : SMap α} {k : String}
    (h : k ∉ m.map Prod.fst) : countKey m k = 0 := by
  unfold countKey
  rw [List.countP_eq_zero]
  intro p hp
  simp only [beq_iff_eq]
  intro hk
  exact h (hk ▸ List.mem_map_of_mem Prod.fst hp)

theorem countKey_eq_one {α : Type} {m : SMap α} (h : keysNodup m) {k : String}
    {v : α} (hf : mapFind? m k = some v) : countKey m k = 1 := by
  induction m with
  | nil => simp [mapFind?] at hf
  | cons p rest ih =>
    obtain ⟨k0, v0⟩ := p
    unfold keysNodup at h
    rw [List.map_cons, List.nodup_cons] at h
    by_cases h0 : k0 = k
    · subst h0
      unfold countKey
      rw [List.countP_cons]
      simp only [beq_self_eq_true, if_pos rfl]
      have hz : countKey rest k0 = 0 := countKey_eq_zero h.1
      unfold countKey at hz
      rw [hz]
      simp
    · simp only [mapFind?, if_neg h0] at hf
      unfold countKey
      rw [List.countP_cons]
      simp only [beq_iff_eq, h0, if_neg h0]
      have hone := ih h.2 hf
      unfold countKey at hone
      rw [hone]
      simp

/-! ### The claims -/

/-- C1: the claim is refuted by the code (code bug).  Confirming a
reservation that is already cancelled must fail with ReservationExpired
and leave the seat maps untouched; instead, because the lazy expiry check
is guarded by `status === "pending"`, a cancelled booking falls through
both guards of `confirmBooking` (and the webhook has no expiry check at
all): confirm returns success, sets the status to confirmed and writes
the seats into the occupied map, on both paths. -/
theorem c1_confirm_after_cancel_code_bug :
    statusOf c1db "b1" = some BookingStatus.cancelled ∧
    occupiedOf c1db "S" "A1" = none ∧
    (confirmBooking 600 c1db "b1").1 = ConfirmResult.ok "Booking confirmed" ∧
    statusOf (confirmBooking 600 c1db "b1").2 "b1" = some BookingStatus.confirmed ∧
    occupiedOf (confirmBooking 600 c1db "b1").2 "S" "A1" = some "u1" ∧
    (stripeWebhookCompleted c1db "b1").1 = WebhookOutcome.confirmedSeatsMoved ∧
    occupiedOf (stripeWebhookCompleted c1db "b1").2 "S" "A1" = some "u1" :=
  ⟨rfl, rfl, rfl, rfl, rfl, rfl, rfl⟩

/-- C2: the claim is refuted by the code (code bug).  After the completed
operation sequence claim(b1) at t=0, claim(b2) at t=700000 (whose cleanup
lazily removed b1's expired hold while b1 stayed pending), and the
payment webhook for b1 at t=710000 (which performs no expiry check and
removes held entries only when owned by b1), seat A1 of show S is both in
the occupied map and held non-expired by b2 — the seat-ledger invariant
is violated. -/
theorem c2_invariant_violated_code_bug :
    (createBooking 0 600000 c2db0 "u1" "S" "b1" ["A1"]).1 =
      CreateResult.ok "b1" 600000 100 ∧
    (createBooking 700000 600000 c2db1 "u2" "S" "b2" ["A1"]).1 =
      CreateResult.ok "b2" 1300000 100 ∧
    (stripeWebhookCompleted c2db2 "b1").1 = WebhookOutcome.confirmedSeatsMoved ∧
    occupiedOf c2final "S" "A1" = some "u1" ∧
    heldOf c2final "S" "A1" =
      some { bookingId := "b2", user := "u2", expiresAt := some 1300000 } ∧
    ∃ sh, mapFind? c2final.shows "S" = some sh ∧
      ¬ seatLedgerInvariant 710000 sh := by
  refine ⟨rfl, rfl, rfl, rfl, rfl,
    { showPrice := 100, occupiedSeats := [("A1", "u1")],
      heldSeats := [("A1", { bookingId := "b2", user := "u2", expiresAt := some 1300000 })] },
    rfl, ?_⟩
  intro hinv
  exact (hinv.1 "A1" rfl)
    ⟨{ bookingId := "b2", user := "u2", expiresAt := some 1300000 }, 1300000,
      rfl, rfl, by decide⟩

/-- C3: confirmed.  When some requested seat is occupied or carries a
live hold, createBooking returns one of the two SeatUnavailable messages,
creates no Booking record, and writes no holds: the resulting state only
differs from the input by the persisted cleanup, whose held map is a
subset of the original one (so no requested seat becomes held). -/
theorem c3_claim_all_or_nothing (now ttlMs : Nat) (db : DB) (u S bid q : String)
    (seats : List String) (sh : Show)
    (hfind : mapFind? db.shows S = some sh) (hs : q ∈ seats)
    (hb : seatBlocked now sh q) :
    ∃ msg, createBooking now ttlMs db u S bid seats =
        (CreateResult.err msg,
         { db with shows := mapInsert db.shows S (cleanupExpiredHeldSeats now sh) }) ∧
      (msg = "Seat already booked" ∨ msg = "Seat temporarily held") ∧
      (createBooking now ttlMs db u S bid seats).2.bookings = db.bookings ∧
      (∀ p, p ∈ (cleanupExpiredHeldSeats now sh).heldSeats → p ∈ sh.heldSeats) := by
  have hne : seats ≠ [] := List.ne_nil_of_mem hs
  obtain ⟨msg, hc, hclass⟩ := conflict_some_of_blocked hs (seatBlocked_cleanup hb)
  have heval := claimPhase1_conflict_intro hne hfind hc
  refine ⟨msg, ?_, hclass, ?_, fun p => cleanup_mem_subset now sh p⟩
  · unfold createBooking
    rw [heval]
  · unfold createBooking
    rw [heval]

/-- C3 witness: show S of `c3db` has seat A1 under a live hold, so a
claim for seats A1 and A2 is rejected all-or-nothing. -/
theorem c3_claim_all_or_nothing_witness :
    mapFind? c3db.shows "S" = some c3show ∧
    "A1" ∈ (["A1", "A2"] : List String) ∧
    seatBlocked 0 c3show "A1" ∧
    (∃ msg, createBooking 0 600000 c3db "u9" "S" "b9" ["A1", "A2"] =
        (CreateResult.err msg,
         { c3db with shows := mapInsert c3db.shows "S" (cleanupExpiredHeldSeats 0 c3show) }) ∧
      (msg = "Seat already booked" ∨ msg = "Seat temporarily held") ∧
      (createBooking 0 600000 c3db "u9" "S" "b9" ["A1", "A2"]).2.bookings = c3db.bookings ∧
      (∀ p, p ∈ (cleanupExpiredHeldSeats 0 c3show).heldSeats → p ∈ c3show.heldSeats)) :=
  ⟨rfl, by decide,
   Or.inr ⟨{ bookingId := "b0", user := "u0", expiresAt := some 1000 }, 1000, rfl, rfl, by decide⟩,
   c3_claim_all_or_nothing 0 600000 c3db "u9" "S" "b9" "A1" ["A1", "A2"] c3show rfl
     (by decide)
     (Or.inr ⟨{ bookingId := "b0", user := "u0", expiresAt := some 1000 }, 1000, rfl, rfl, by decide⟩)⟩

/-- C4 counterexample: with pending booking b1 past its expiry (500 ≤ 600)
and its hold entry still on show S, confirm does cancel the booking and
return the expiry failure, but it does NOT remove the hold entry from the
show's held map — refuting the claim's "removes that reservation's hold
entries from the show's held map" at this concrete input. -/
theorem c4_confirm_after_expiry_counterexample :
    statusOf c4db "b1" = some BookingStatus.pending ∧
    (confirmBooking 600 c4db "b1").1 = ConfirmResult.err "Booking expired" ∧
    statusOf (confirmBooking 600 c4db "b1").2 "b1" = some BookingStatus.cancelled ∧
    heldOf (confirmBooking 600 c4db "b1").2 "S" "A1" =
      some { bookingId := "b1", user := "u1", expiresAt := some 500 } ∧
    occupiedOf (confirmBooking 600 c4db "b1").2 "S" "A1" = none :=
  ⟨rfl, rfl, rfl, rfl, rfl⟩

/-- C4 amended: confirm on a pending reservation past its expiry
transitions it to cancelled, returns the ReservationExpired failure, and
leaves the show document entirely untouched: the seats stay absent from
occupied, and the (expired) hold entries stay in the held map, where the
availability checks ignore them and the next sweep or cleanup removes
them. -/
theorem c4_confirm_after_expiry_amended (now t : Nat) (db : DB)
    (bookingId : String) (b : Booking)
    (hfind : mapFind? db.bookings bookingId = some b)
    (hstatus : b.status = BookingStatus.pending)
    (hexp : b.expiresAt = some t) (hle : t ≤ now) :
    confirmBooking now db bookingId =
      (ConfirmResult.err "Booking expired",
       { db with bookings := mapInsert db.bookings bookingId { b with status := BookingStatus.cancelled } }) := by
  simp [confirmBooking, hfind, hstatus, bookingExpired, hexp, hle]

/-- C4 witness: the amended statement applied to `c4db`. -/
theorem c4_confirm_after_expiry_amended_witness :
    mapFind? c4db.bookings "b1" = some expiredPendingBooking ∧
    expiredPendingBooking.status = BookingStatus.pending ∧
    expiredPendingBooking.expiresAt = some 500 ∧ 500 ≤ 600 ∧
    confirmBooking 600 c4db "b1" =
      (ConfirmResult.err "Booking expired",
       { c4db with bookings := mapInsert c4db.bookings "b1" { expiredPendingBooking with status := BookingStatus.cancelled } }) :=
  ⟨rfl, rfl, rfl, by decide,
   c4_confirm_after_expiry_amended 600 500 c4db "b1" expiredPendingBooking rfl rfl rfl
     (by decide)⟩

/-- C5: confirmed.  Confirm on a reservation already in confirmed status
returns success and changes nothing — neither the booking nor the show's
seat maps — on the confirm endpoint and on the payment webhook (whose
idempotency guard additionally checks `isPaid`, which every confirmed
booking has): confirming twice yields the state of confirming once. -/
theorem c5_confirm_idempotent (now : Nat) (db : DB) (bookingId : String)
    (b : Booking) (hfind : mapFind? db.bookings bookingId = some b)
    (hstatus : b.status = BookingStatus.confirmed) (hpaid : b.isPaid = true) :
    confirmBooking now db bookingId = (ConfirmResult.ok "Already confirmed", db) ∧
    stripeWebhookCompleted db bookingId = (WebhookOutcome.alreadyConfirmed, db) := by
  constructor
  · simp [confirmBooking, hfind, hstatus]
  · simp [stripeWebhookCompleted, hfind, hstatus, hpaid]

/-- C5 witness: the idempotent confirm applied to `c5db`. -/
theorem c5_confirm_idempotent_witness :
    mapFind? c5db.bookings "b1" = some confirmedBooking ∧
    confirmedBooking.status = BookingStatus.confirmed ∧
    confirmedBooking.isPaid = true ∧
    (confirmBooking 777 c5db "b1" = (ConfirmResult.ok "Already confirmed", c5db) ∧
     stripeWebhookCompleted c5db "b1" = (WebhookOutcome.alreadyConfirmed, c5db)) :=
  ⟨rfl, rfl, rfl, c5_confirm_idempotent 777 c5db "b1" confirmedBooking rfl rfl rfl⟩

/-- C6: confirmed against the spec-modelled conflict-checked store.  For
two concurrent claims against the same show with overlapping seat sets,
under every schedule of their read and write phases, at most one claim
succeeds, and whenever one succeeds the other receives one of the two
SeatUnavailable rejections. -/
theorem c6_no_double_claim (now ttlMs : Nat) (c : CDB) (S q : String)
    (a1 a2 : ClaimArgs) (sched : Sched)
    (httl : 0 < ttlMs) (h1 : q ∈ a1.seats) (h2 : q ∈ a2.seats) :
    ¬((runTwoClaims now ttlMs c S a1 a2 sched).1.isOk = true ∧
      (runTwoClaims now ttlMs c S a1 a2 sched).2.1.isOk = true) ∧
    ((runTwoClaims now ttlMs c S a1 a2 sched).1.isOk = true →
      isSeatUnavailable (runTwoClaims now ttlMs c S a1 a2 sched).2.1) ∧
    ((runTwoClaims now ttlMs c S a1 a2 sched).2.1.isOk = true →
      isSeatUnavailable (runTwoClaims now ttlMs c S a1 a2 sched).1) := by
  cases sched with
  | s1 => exact runPair_exclusive now ttlMs c S a1 a2 q Interleaving.seq httl h1 h2
  | s2 => exact runPair_exclusive now ttlMs c S a1 a2 q Interleaving.rrww httl h1 h2
  | s3 => exact runPair_exclusive now ttlMs c S a1 a2 q Interleaving.rrwbwa httl h1 h2
  | s4 =>
    obtain ⟨hx, hy, hz⟩ :=
      runPair_exclusive now ttlMs c S a2 a1 q Interleaving.seq httl h2 h1
    exact ⟨fun hp => hx ⟨hp.2, hp.1⟩, hz, hy⟩
  | s5 =>
    obtain ⟨hx, hy, hz⟩ :=
      runPair_exclusive now ttlMs c S a2 a1 q Interleaving.rrww httl h2 h1
    exact ⟨fun hp => hx ⟨hp.2, hp.1⟩, hz, hy⟩
  | s6 =>
    obtain ⟨hx, hy, hz⟩ :=
      runPair_exclusive now ttlMs c S a2 a1 q Interleaving.rrwbwa httl h2 h1
    exact ⟨fun hp => hx ⟨hp.2, hp.1⟩, hz, hy⟩

/-- C6 witness: two concurrent claims for seat A1 under the schedule that
reads both before either writes. -/
theorem c6_no_double_claim_witness :
    0 < 600000 ∧ "A1" ∈ c6args1.seats ∧ "A1" ∈ c6args2.seats ∧
    (¬((runTwoClaims 0 600000 c6store "S" c6args1 c6args2 Sched.s2).1.isOk = true ∧
       (runTwoClaims 0 600000 c6store "S" c6args1 c6args2 Sched.s2).2.1.isOk = true) ∧
     ((runTwoClaims 0 600000 c6store "S" c6args1 c6args2 Sched.s2).1.isOk = true →
       isSeatUnavailable (runTwoClaims 0 600000 c6store "S" c6args1 c6args2 Sched.s2).2.1) ∧
     ((runTwoClaims 0 600000 c6store "S" c6args1 c6args2 Sched.s2).2.1.isOk = true →
       isSeatUnavailable (runTwoClaims 0 600000 c6store "S" c6args1 c6args2 Sched.s2).1)) :=
  ⟨by decide, by decide, by decide,
   c6_no_double_claim 0 600000 c6store "S" "A1" c6args1 c6args2 Sched.s2
     (by decide) (by decide) (by decide)⟩

/-- C7 counterexample: releasing the already-cancelled booking b1 of
`c7db` is not a rejected no-op: it returns success, rewrites the
booking's expiry from 5000 to now - 1000 = 8000, and removes its
remaining hold entry — refuting the claim's "returns AlreadyTerminal"
and "status, expiry and seat maps all left unchanged" at this input. -/
theorem c7_release_cancelled_counterexample :
    statusOf c7db "b1" = some BookingStatus.cancelled ∧
    (mapFind? c7db.bookings "b1").map Booking.expiresAt = some (some 5000) ∧
    heldOf c7db "S" "A1" =
      some { bookingId := "b1", user := "u1", expiresAt := some 5000 } ∧
    (releaseBooking 9000 c7db "u1" false "b1").1 = ReleaseResult.ok "Released hold" ∧
    (mapFind? (releaseBooking 9000 c7db "u1" false "b1").2.bookings "b1").map
        Booking.expiresAt = some (some 8000) ∧
    heldOf (releaseBooking 9000 c7db "u1" false "b1").2 "S" "A1" = none :=
  ⟨rfl, rfl, rfl, rfl, rfl, rfl⟩

/-- C7 amended: release on an already-confirmed reservation is rejected
("Booking already confirmed") with no state change; release on an
already-cancelled reservation is NOT a no-op: it returns success,
re-saves the booking as cancelled with its expiry reset to one second in
the past, and removes its remaining hold entries from the show's held
map (entries of other bookings are kept, occupied is untouched). -/
theorem c7_release_terminal_amended (now : Nat) (db : DB)
    (userId bookingId : String) (isAdmin : Bool) (b : Booking) (sh : Show)
    (hfind : mapFind? db.bookings bookingId = some b)
    (hauth : b.user = userId ∨ isAdmin = true)
    (hsh : mapFind? db.shows b.showId = some sh) :
    (b.status = BookingStatus.confirmed →
      releaseBooking now db userId isAdmin bookingId =
        (ReleaseResult.err "Booking already confirmed", db)) ∧
    (b.status = BookingStatus.cancelled →
      ∃ db2, releaseBooking now db userId isAdmin bookingId =
          (ReleaseResult.ok "Released hold", db2) ∧
        mapFind? db2.bookings bookingId = some
          { b with status := BookingStatus.cancelled, expiresAt := some (now - 1000) } ∧
        (∃ sh2, mapFind? db2.shows b.showId = some sh2 ∧
          sh2.occupiedSeats = sh.occupiedSeats ∧
          sh2.heldSeats = releaseHeldOwned bookingId b.seats sh.heldSeats ∧
          (∀ seat ∈ b.seats, ∀ e, mapFind? sh.heldSeats seat = some e →
            e.bookingId = bookingId → mapFind? sh2.heldSeats seat = none) ∧
          (∀ seat e, mapFind? sh.heldSeats seat = some e →
            e.bookingId ≠ bookingId → mapFind? sh2.heldSeats seat = some e))) := by
  have hna : ¬(b.user ≠ userId ∧ isAdmin = false) := by
    rintro ⟨h1, h2⟩
    rcases hauth with h | h
    · exact h1 h
    · rw [h] at h2
      exact Bool.noConfusion h2
  constructor
  · intro hst
    simp [releaseBooking, hfind, hna, hst]
  · intro hst
    have heq : releaseBooking now db userId isAdmin bookingId =
        (ReleaseResult.ok "Released hold",
         { shows := mapInsert db.shows b.showId { sh with heldSeats := releaseHeldOwned bookingId b.seats sh.heldSeats },
           bookings := mapInsert db.bookings bookingId { b with status := BookingStatus.cancelled, expiresAt := some (now - 1000) } }) := by
      simp [releaseBooking, hfind, hna, hst, hsh]
    refine ⟨_, heq, mapFind?_insert_self _ _ _,
      { sh with heldSeats := releaseHeldOwned bookingId b.seats sh.heldSeats },
      mapFind?_insert_self _ _ _, rfl, rfl, ?_, ?_⟩
    · intro seat hseat e hfe hown
      exact releaseHeldOwned_owned hseat hfe hown
    · intro seat e hfe hown
      exact releaseHeldOwned_not_owned hfe hown

/-- C7 witness: the amended statement applied to `c7db`. -/
theorem c7_release_terminal_amended_witness :
    mapFind? c7db.bookings "b1" = some c7booking ∧
    (c7booking.user = "u1" ∨ false = true) ∧
    mapFind? c7db.shows c7booking.showId = some c7show ∧
    ((c7booking.status = BookingStatus.confirmed →
      releaseBooking 9000 c7db "u1" false "b1" =
        (ReleaseResult.err "Booking already confirmed", c7db)) ∧
     (c7booking.status = BookingStatus.cancelled →
      ∃ db2, releaseBooking 9000 c7db "u1" false "b1" =
          (ReleaseResult.ok "Released hold", db2) ∧
        mapFind? db2.bookings "b1" = some
          { c7booking with status := BookingStatus.cancelled, expiresAt := some 8000 } ∧
        (∃ sh2, mapFind? db2.shows c7booking.showId = some sh2 ∧
          sh2.occupiedSeats = c7show.occupiedSeats ∧
          sh2.heldSeats = releaseHeldOwned "b1" c7booking.seats c7show.heldSeats ∧
          (∀ seat ∈ c7booking.seats, ∀ e, mapFind? c7show.heldSeats seat = some e →
            e.bookingId = "b1" → mapFind? sh2.heldSeats seat = none) ∧
          (∀ seat e, mapFind? c7show.heldSeats seat = some e →
            e.bookingId ≠ "b1" → mapFind? sh2.heldSeats seat = some e)))) :=
  ⟨rfl, Or.inl rfl, rfl,
   c7_release_terminal_amended 9000 c7db "u1" "b1" false c7booking c7show rfl
     (Or.inl rfl) rfl⟩

/-- C8: confirmed.  The per-show expiry sweep (`cleanupExpiredHeldSeats`,
the spec's `sweepExpired(showId)`) keeps exactly the hold entries that
carry an unexpired `expiresAt` — every entry whose expiry has passed is
removed, regardless of which reservation owns it and without consulting
the reservation records at all — and never changes `occupiedSeats`; the
periodic cron sweep (`expireTicketsSweep`) also never adds to or removes
from any show's occupied map. -/
theorem c8_sweep_spec (now : Nat) (s : Show) (db : DB) (sid : String) :
    (cleanupExpiredHeldSeats now s).occupiedSeats = s.occupiedSeats ∧
    (∀ p : String × HoldEntry, p ∈ (cleanupExpiredHeldSeats now s).heldSeats ↔
      (p ∈ s.heldSeats ∧ ∃ t, p.2.expiresAt = some t ∧ now < t)) ∧
    (mapFind? (expireTicketsSweep now db).shows sid).map Show.occupiedSeats =
      (mapFind? db.shows sid).map Show.occupiedSeats := by
  refine ⟨rfl, ?_, expireTicketsSweep_occupied now db sid⟩
  intro p
  simp only [cleanupExpiredHeldSeats, List.mem_filter]
  constructor
  · rintro ⟨hm, hp⟩
    refine ⟨hm, ?_⟩
    unfold holdAlive at hp
    rcases he : p.2.expiresAt with _ | t
    · rw [he] at hp
      exact Bool.noConfusion hp
    · rw [he] at hp
      exact ⟨t, rfl, of_decide_eq_true hp⟩
  · rintro ⟨hm, t, he, ht⟩
    refine ⟨hm, ?_⟩
    unfold holdAlive
    rw [he]
    exact decide_eq_true ht

/-- C9: confirmed.  A successful createBooking charges
`showPrice * seats.length`, sets expiry to `now + HOLD_MINUTES minutes`
(`HOLD_MINUTES` defaults to 10 minutes, i.e. 600 seconds), persists a
pending Booking carrying that expiry, the seats and the amount, and
writes one held entry per requested seat carrying this booking's
identity and the same expiry. -/
theorem c9_create_reservation_success (now : Nat) (env : Option Nat) (db : DB)
    (u S bid : String) (seats : List String) (sh : Show)
    (hfind : mapFind? db.shows S = some sh) (hne : seats ≠ [])
    (hfree : ∀ q ∈ seats, ¬ seatBlocked now (cleanupExpiredHeldSeats now sh) q)
    (hprice : sh.showPrice ≠ 0) :
    ∃ db2,
      createBooking now (HOLD_MINUTES env * 60 * 1000) db u S bid seats =
        (CreateResult.ok bid (now + HOLD_MINUTES env * 60 * 1000)
          (sh.showPrice * seats.length), db2) ∧
      mapFind? db2.bookings bid = some
        { user := u, showId := S, amount := sh.showPrice * seats.length,
          seats := seats, status := BookingStatus.pending,
          expiresAt := some (now + HOLD_MINUTES env * 60 * 1000), isPaid := false } ∧
      (∃ sh2, mapFind? db2.shows S = some sh2 ∧
        ∀ q ∈ seats, mapFind? sh2.heldSeats q =
          some (newHold bid u (now + HOLD_MINUTES env * 60 * 1000))) ∧
      HOLD_MINUTES none * 60 = 600 := by
  have heval : createBooking now (HOLD_MINUTES env * 60 * 1000) db u S bid seats =
      (CreateResult.ok bid (now + HOLD_MINUTES env * 60 * 1000)
        (sh.showPrice * seats.length),
       { shows := mapInsert (mapInsert db.shows S (cleanupExpiredHeldSeats now sh)) S
           (claimedShow bid u (now + HOLD_MINUTES env * 60 * 1000) seats
             (cleanupExpiredHeldSeats now sh)),
         bookings := mapInsert db.bookings bid
           { user := u, showId := S, amount := sh.showPrice * seats.length,
             seats := seats, status := BookingStatus.pending,
             expiresAt := some (now + HOLD_MINUTES env * 60 * 1000), isPaid := false } }) :=
    createBooking_ok_spec hfind hne hfree hprice
  refine ⟨_, heval, mapFind?_insert_self _ _ _,
    ⟨claimedShow bid u (now + HOLD_MINUTES env * 60 * 1000) seats
       (cleanupExpiredHeldSeats now sh),
     mapFind?_insert_self _ _ _, ?_⟩, rfl⟩
  intro q hq
  show mapFind? (holdAll bid u (now + HOLD_MINUTES env * 60 * 1000) seats
    (cleanupExpiredHeldSeats now sh).heldSeats) q = _
  rw [mapFind?_holdAll, if_pos hq]

/-- C9 witness: a claim for seat A1 of the fresh show succeeds with the
default 10-minute TTL. -/
theorem c9_create_reservation_success_witness :
    mapFind? c9db.shows "S" = some freshShow ∧
    (["A1"] : List String) ≠ [] ∧
    (∀ q ∈ (["A1"] : List String),
      ¬ seatBlocked 0 (cleanupExpiredHeldSeats 0 freshShow) q) ∧
    freshShow.showPrice ≠ 0 ∧
    (∃ db2,
      createBooking 0 (HOLD_MINUTES none * 60 * 1000) c9db "u1" "S" "b1" ["A1"] =
        (CreateResult.ok "b1" (0 + HOLD_MINUTES none * 60 * 1000)
          (freshShow.showPrice * (["A1"] : List String).length), db2) ∧
      mapFind? db2.bookings "b1" = some
        { user := "u1", showId := "S",
          amount := freshShow.showPrice * (["A1"] : List String).length,
          seats := ["A1"], status := BookingStatus.pending,
          expiresAt := some (0 + HOLD_MINUTES none * 60 * 1000), isPaid := false } ∧
      (∃ sh2, mapFind? db2.shows "S" = some sh2 ∧
        ∀ q ∈ (["A1"] : List String), mapFind? sh2.heldSeats q =
          some (newHold "b1" "u1" (0 + HOLD_MINUTES none * 60 * 1000))) ∧
      HOLD_MINUTES none * 60 = 600) :=
  ⟨rfl, by decide,
   by
     intro q hq hb
     rcases hb with h | ⟨e, t, hf, he, ht⟩
     · exact Bool.noConfusion h
     · exact Option.noConfusion hf,
   by decide,
   c9_create_reservation_success 0 none c9db "u1" "S" "b1" ["A1"] freshShow rfl
     (by decide)
     (by
       intro q hq hb
       rcases hb with h | ⟨e, t, hf, he, ht⟩
       · exact Bool.noConfusion h
       · exact Option.noConfusion hf)
     (by decide)⟩

/-- C10: confirmed.  A createBooking request whose seat list repeats a
free seat succeeds, charges `showPrice * seats.length` — the length
counts every occurrence, so duplicates are billed per occurrence — while
the show's held map carries exactly one entry for that seat. -/
theorem c10_duplicate_seats_held_once (now ttlMs : Nat) (db : DB)
    (u S bid q : String) (seats : List String) (sh : Show)
    (hfind : mapFind? db.shows S = some sh)
    (hdup : 1 < seats.count q)
    (hfree : ∀ x ∈ seats, ¬ seatBlocked now (cleanupExpiredHeldSeats now sh) x)
    (hprice : sh.showPrice ≠ 0) (hnodup : keysNodup sh.heldSeats) :
    ∃ db2,
      createBooking now ttlMs db u S bid seats =
        (CreateResult.ok bid (now + ttlMs) (sh.showPrice * seats.length), db2) ∧
      (∃ sh2, mapFind? db2.shows S = some sh2 ∧
        countKey sh2.heldSeats q = 1) := by
  have hmem : q ∈ seats := by
    by_contra hmem
    rw [List.count_eq_zero_of_not_mem hmem] at hdup
    omega
  have hne : seats ≠ [] := List.ne_nil_of_mem hmem
  have heval : createBooking now ttlMs db u S bid seats =
      (CreateResult.ok bid (now + ttlMs) (sh.showPrice * seats.length),
       { shows := mapInsert (mapInsert db.shows S (cleanupExpiredHeldSeats now sh)) S
           (claimedShow bid u (now + ttlMs) seats (cleanupExpiredHeldSeats now sh)),
         bookings := mapInsert db.bookings bid
           { user := u, showId := S, amount := sh.showPrice * seats.length,
             seats := seats, status := BookingStatus.pending,
             expiresAt := some (now + ttlMs), isPaid := false } }) :=
    createBooking_ok_spec hfind hne hfree hprice
  refine ⟨_, heval,
    claimedShow bid u (now + ttlMs) seats (cleanupExpiredHeldSeats now sh),
    mapFind?_insert_self _ _ _, ?_⟩
  have hnodup2 : keysNodup (claimedShow bid u (now + ttlMs) seats
      (cleanupExpiredHeldSeats now sh)).heldSeats :=
    keysNodup_holdAll seats (keysNodup_filter _ hnodup)
  have hfq : mapFind? (claimedShow bid u (now + ttlMs) seats
      (cleanupExpiredHeldSeats now sh)).heldSeats q =
      some (newHold bid u (now + ttlMs)) := by
    show mapFind? (holdAll bid u (now + ttlMs) seats
      (cleanupExpiredHeldSeats now sh).heldSeats) q = _
    rw [mapFind?_holdAll, if_pos hmem]
  exact countKey_eq_one hnodup2 hfq

/-- C10 witness: claiming the duplicated list [A1, A1] on the fresh show
bills two occurrences (price 100, amount 200) and holds A1 once. -/
theorem c10_duplicate_seats_held_once_witness :
    mapFind? c9db.shows "S" = some freshShow ∧
    1 < (["A1", "A1"] : List String).count "A1" ∧
    (∀ x ∈ (["A1", "A1"] : List String),
      ¬ seatBlocked 0 (cleanupExpiredHeldSeats 0 freshShow) x) ∧
    freshShow.showPrice ≠ 0 ∧ keysNodup freshShow.heldSeats ∧
    (∃ db2,
      createBooking 0 600000 c9db "u1" "S" "b1" ["A1", "A1"] =
        (CreateResult.ok "b1" (0 + 600000)
          (freshShow.showPrice * (["A1", "A1"] : List String).length), db2) ∧
      (∃ sh2, mapFind? db2.shows "S" = some sh2 ∧
        countKey sh2.heldSeats "A1" = 1)) :=
  ⟨rfl, by decide,
   by
     intro x hx hb
     rcases hb with h | ⟨e, t, hf, he, ht⟩
     · exact Bool.noConfusion h
     · exact Option.noConfusion hf,
   by decide, List.nodup_nil,
   c10_duplicate_seats_held_once 0 600000 c9db "u1" "S" "b1" "A1" ["A1", "A1"]
     freshShow rfl (by decide)
     (by
       intro x hx hb
       rcases hb with h | ⟨e, t, hf, he, ht⟩
       · exact Bool.noConfusion h
       · exact Option.noConfusion hf)
     (by decide) List.nodup_nil⟩

end MovieMint
